import Mathlib

/-!
Verification of the GloveLet time-series core (`glovelet/utility/timeseries.py`).

The Python classes `DataSequence` and `DataTimeSeries` are shallowly embedded
below.  Numeric sample values are modelled as rationals (`ℚ`), abstracting the
floating-point machine arithmetic of NumPy; a sample row is a `List ℚ` of
length `ndim` (the scalar case `ndim = 1` is the singleton row).  NumPy's
broadcasting assignment of the Python scalar `0` into a `ndim`-vector slot is
modelled as the zero vector of that dimension.  Mutating methods become
functions `State → State × Option TSErr`; a raised Python exception is the
`some`-error component, and the state returned alongside it reflects exactly
the in-place mutations that had already happened when the exception was
raised (Python objects keep those mutations).
-/

/-- Componentwise addition of sample rows (`numpy` elementwise `+`). -/
def vadd (a b : List ℚ) : List ℚ := List.zipWith (· + ·) a b

/-- Scalar multiple of a sample row. -/
def smulVec (c : ℚ) (v : List ℚ) : List ℚ := v.map (fun x => c * x)

/-- Division of a sample row by a scalar. -/
def divVec (v : List ℚ) (c : ℚ) : List ℚ := v.map (fun x => x / c)

/-- The zero vector of dimension `d` (`np.zeros(d)`). -/
def zeroVec (d : ℕ) : List ℚ := List.replicate d 0

/-- `sum(rows)` with Python's integer start value `0`, which broadcasts to the
zero vector of the row dimension `d`. -/
def sumRows (rows : List (List ℚ)) (d : ℕ) : List ℚ := rows.foldl vadd (zeroVec d)

/-- Exceptions raised by the Python methods modelled here:
`ShapeMismatch` is NumPy's broadcast `ValueError` on assigning a row of the
wrong dimension, `IndexOutOfRange` is Python's `IndexError`, and
`AttributeError` is raised when an unbound attribute (the primary filter)
is used. -/
inductive TSErr
  | ShapeMismatch
  | IndexOutOfRange
  | AttributeError
  deriving DecidableEq, Repr

/-- State of a Python `DataSequence` object: capacity, sample dimension,
the `added` counter, the `head` index and the backing storage. -/
structure DataSequence where
  nsamples : ℕ
  ndim : ℕ
  added : ℕ
  head : ℕ
  data_series : List (List ℚ)
  deriving DecidableEq, Repr

/-- `DataSequence.__init__`: zero-initialized storage, `head = added = 0`. -/
def DataSequence.init (samples dimensions : ℕ) : DataSequence :=
  ⟨samples, dimensions, 0, 0, List.replicate samples (zeroVec dimensions)⟩

/-- `DataSequence._increment_head`. -/
def DataSequence.increment_head (s : DataSequence) : DataSequence :=
  let h := s.head + 1
  if h ≥ s.nsamples then { s with head := 0 } else { s with head := h }

/-- `DataSequence._increment_added`. -/
def DataSequence.increment_added (s : DataSequence) : DataSequence :=
  if s.added < s.nsamples then { s with added := s.added + 1 } else s

/-- The row stored by a successful NumPy row assignment: a value of exactly
`d` components is stored verbatim, a single-component value (the model of a
Python scalar or length-1 iterable) broadcasts across all `d` components. -/
def npBroadcastRow (d : ℕ) (v : List ℚ) : List ℚ :=
  if v.length = d then v else List.replicate d (v.getD 0 0)

/-- `DataSequence.add`: increments `added`, advances `head`, then assigns
`data_series[head] = data`.  NumPy accepts the assignment when the value has
exactly `ndim` components or exactly one (which broadcasts); any other
length raises the broadcast `ValueError`, after the two increments have
already mutated the object. -/
def DataSequence.add (s0 : DataSequence) (data : List ℚ) :
    DataSequence × Option TSErr :=
  let s := s0.increment_added.increment_head
  if data.length = s.ndim ∨ data.length = 1 then
    ({ s with
        data_series := s.data_series.set s.head (npBroadcastRow s.ndim data) },
      none)
  else
    (s, some TSErr.ShapeMismatch)

/-- `DataSequence._get_real_index`. -/
def DataSequence.get_real_index (s : DataSequence) (from_head : ℤ) : ℤ :=
  let result := (s.head : ℤ) - from_head
  if result < 0 then result + s.nsamples else result

/-- Python/NumPy integer indexing into an array of length `n`: indices in
`[0, n)` are used directly, indices in `[-n, 0)` wrap once, anything else
raises `IndexError` (`none`). -/
def npIndex (n : ℕ) (i : ℤ) : Option ℕ :=
  if 0 ≤ i ∧ i < (n : ℤ) then some i.toNat
  else if 0 ≤ i + n ∧ i + n < (n : ℤ) then some (i + n).toNat
  else none

/-- `DataSequence.__getitem__` for a single (possibly negative) index:
`self.data_series[self._get_real_index(key)]`. -/
def DataSequence.get_rel (s : DataSequence) (key : ℤ) : Option (List ℚ) :=
  (npIndex s.data_series.length (s.get_real_index key)).map
    (fun j => s.data_series.getD j [])

/-- Python `a[s::-1]` for `0 ≤ s < len a`: elements `s, s-1, …, 0`. -/
def pySliceRevTo0 (a : List (List ℚ)) (s : ℕ) : List (List ℚ) :=
  (a.take (s + 1)).reverse

/-- Python `a[len(a):e:-1]` for `0 ≤ e < len a`: the slice start clamps to
`len a - 1`, giving elements `len a - 1, …, e+1`. -/
def pySliceRevFromEnd (a : List (List ℚ)) (e : ℕ) : List (List ℚ) :=
  (a.drop (e + 1)).reverse

/-- Python `a[s:e:-1]` for `e ≤ s < len a`: elements `s, s-1, …, e+1`. -/
def pySliceRevMid (a : List (List ℚ)) (s e : ℕ) : List (List ℚ) :=
  ((a.take (s + 1)).drop (e + 1)).reverse

/-- `DataSequence.__extract_range`.  Its only caller, `__getitem__` on a
slice, forces the incoming `step` to `1`, which the body negates to `-1`;
so the step is fixed here.  Both branch results are concatenations in the
newest-to-oldest orientation produced by the source's slice assignments. -/
def DataSequence.extract_range (s : DataSequence) (start stop : ℕ) :
    List (List ℚ) :=
  let start_ind := (s.get_real_index start).toNat
  let end_ind := (s.get_real_index stop).toNat
  if end_ind ≥ start_ind then
    pySliceRevTo0 s.data_series start_ind ++ pySliceRevFromEnd s.data_series end_ind
  else
    pySliceRevMid s.data_series start_ind end_ind

/-- `self[:]` — `__getitem__` with a full slice: `start=0`, `stop=nsamples`,
`step` normalized to `1`. -/
def DataSequence.get_slice_all (s : DataSequence) : List (List ℚ) :=
  s.extract_range 0 s.nsamples

/-- `DataTimeSeries.sma` reads only base-class state (`added`, `ndim`,
`self[:]`), so it is defined at the `DataSequence` level.  `added == 0`
returns the Python scalar `0`, which broadcasts as the zero vector. -/
def DataSequence.sma (s : DataSequence) : List ℚ :=
  if s.added = 0 then zeroVec s.ndim
  else divVec (sumRows s.get_slice_all s.ndim) s.added

/-- Sequential replay: `add` each sample of `xs` in order, keeping the
(possibly partially updated) state of each call. -/
def DataSequence.addAll (s : DataSequence) (xs : List (List ℚ)) : DataSequence :=
  xs.foldl (fun a x => (a.add x).1) s

/-- Basic well-formedness of a `DataSequence` state, established by
construction and preserved by `add`. -/
def DataSequence.wf (s : DataSequence) : Prop :=
  s.head < s.nsamples ∧ s.added ≤ s.nsamples ∧ s.data_series.length = s.nsamples

/-- `self.timestamp[0]`-style scalar read: newest row of a 1-dimensional
ring, i.e. `get_rel 0` projected to its single component. -/
def DataSequence.get0 (s : DataSequence) : ℚ :=
  (((s.get_rel 0).getD []).getD 0 0)

/-- `add` of a scalar ring (`DataSequence(nsamples, 1)`) value. -/
def DataSequence.add1 (s : DataSequence) (x : ℚ) : DataSequence :=
  (s.add [x]).1

/-- Which primary filter got bound at construction.  `unbound` models the
source's fall-through: no branch of the `filter_alg` dispatch matched, so
the attribute `self.__filter` was never assigned. -/
inductive BoundFilter
  | ewma
  | passthrough
  | unbound
  deriving DecidableEq, Repr

/-- The rebinding state of the `add` method: `__initial_time_add`,
`__initialize_series_add`, or the optimized `__add`. -/
inductive Phase
  | initial
  | warmup
  | steady
  deriving DecidableEq, Repr

/-- State of a Python `DataTimeSeries` object.  `raw_data` and
`filtered_data` are the two storage arrays; `activeFiltered` records which
of them the inherited `data_series` attribute currently aliases. -/
structure DataTimeSeries where
  nsamples : ℕ
  ndim : ℕ
  added : ℕ
  head : ℕ
  raw_data : List (List ℚ)
  filtered_data : Option (List (List ℚ))
  activeFiltered : Bool
  tdelta : DataSequence
  time_elapsed : DataSequence
  timestamp : DataSequence
  weight : Option ℚ
  denom : ℚ
  exp_weights : List ℚ
  filter : BoundFilter
  phase : Phase
  deriving DecidableEq, Repr

/-- Errors that `DataTimeSeries.__init__` can raise. -/
inductive InitErr
  | AttributeError
  deriving DecidableEq, Repr

/-- `DataTimeSeries.__init__`.  The `'sma'` branch executes
`self.__filter['sma'] = self.sma`, a subscript assignment to the attribute
`self.__filter` that has never been assigned, so it raises
`AttributeError` at construction.  A `filter_alg` string matching no branch
leaves `self.__filter` unbound without raising anything. -/
def DataTimeSeries.init (nsamples ndim : ℕ) (auto_filter : Bool)
    (filter_alg : Option String) (ewma_weight : Option ℚ) :
    Except InitErr DataTimeSeries :=
  let t : DataTimeSeries := {
    nsamples := nsamples, ndim := ndim, added := 0, head := 0,
    raw_data := List.replicate nsamples (zeroVec ndim),
    filtered_data := none, activeFiltered := false,
    tdelta := DataSequence.init nsamples 1,
    time_elapsed := DataSequence.init nsamples 1,
    timestamp := DataSequence.init nsamples 1,
    weight := ewma_weight, denom := 0,
    exp_weights := List.replicate nsamples 0,
    filter := BoundFilter.unbound, phase := Phase.initial }
  if auto_filter then
    let t := { t with
      filtered_data := some (List.replicate nsamples (zeroVec ndim)),
      activeFiltered := true }
    match filter_alg with
    | some "ewma" => Except.ok { t with filter := BoundFilter.ewma }
    | some "sma" => Except.error InitErr.AttributeError
    | some "lowpass" => Except.ok { t with filter := BoundFilter.passthrough }
    | none => Except.ok { t with filter := BoundFilter.passthrough }
    | some _ => Except.ok t
  else
    Except.ok t

/-- The array the inherited `data_series` attribute currently aliases. -/
def DataTimeSeries.active (t : DataTimeSeries) : List (List ℚ) :=
  if t.activeFiltered then t.filtered_data.getD [] else t.raw_data

/-- The inherited `DataSequence` view of a `DataTimeSeries` (shared
`head`/`added`, active storage). -/
def DataTimeSeries.activeSeq (t : DataTimeSeries) : DataSequence :=
  ⟨t.nsamples, t.ndim, t.added, t.head, t.active⟩

/-- `self[key]` on a `DataTimeSeries`: base-class indexing over the active
view. -/
def DataTimeSeries.get_rel (t : DataTimeSeries) (key : ℤ) : Option (List ℚ) :=
  t.activeSeq.get_rel key

/-- `DataTimeSeries.sma` as invoked on the object (reads the active view). -/
def DataTimeSeries.sma (t : DataTimeSeries) : List ℚ :=
  t.activeSeq.sma

/-- `DataTimeSeries.ewma`: `Σ_{i<added} exp_weights[i]·self[i] / denom`.
Reads within `added` are in range whenever the state is well-formed; the
zero-vector default of `get_rel` never applies there. -/
def DataTimeSeries.ewma (t : DataTimeSeries) : List ℚ :=
  let result := (List.range t.added).foldl
    (fun acc i =>
      vadd acc (smulVec (t.exp_weights.getD i 0) ((t.get_rel i).getD (zeroVec t.ndim))))
    (zeroVec t.ndim)
  divVec result t.denom

/-- Evaluate `self.__filter()`: the bound primary filter, or an
`AttributeError` when no branch of the constructor bound one.
`__pass_filter` returns `self[0]`. -/
def DataTimeSeries.run_filter (t : DataTimeSeries) : Except TSErr (List ℚ) :=
  match t.filter with
  | BoundFilter.ewma => Except.ok t.ewma
  | BoundFilter.passthrough =>
    match t.get_rel 0 with
    | some v => Except.ok v
    | none => Except.error TSErr.IndexOutOfRange
  | BoundFilter.unbound => Except.error TSErr.AttributeError

/-- `self.__filtered_data[self.head] = v`: NumPy accepts a value of exactly
`ndim` components, or of one component (which broadcasts), and overwrites
the slot at `head`; any other length raises the broadcast error. -/
def DataTimeSeries.writeFiltered (t : DataTimeSeries) (v : List ℚ) :
    DataTimeSeries × Option TSErr :=
  if v.length = t.ndim ∨ v.length = 1 then
    ({ t with filtered_data :=
        t.filtered_data.map (fun fd => fd.set t.head (npBroadcastRow t.ndim v)) },
      none)
  else
    (t, some TSErr.ShapeMismatch)

/-- The primary-filter and post-hook part of `__filter_data`: evaluate the
bound filter, write its result at `head`, switch the active view to the
filtered array, then run the post hook (if any) and overwrite the slot with
its result. -/
def DataTimeSeries.filter_primary (t : DataTimeSeries)
    (post_filter : Option (DataTimeSeries → List ℚ)) :
    DataTimeSeries × Option TSErr :=
  match t.run_filter with
  | Except.error e => (t, some e)
  | Except.ok v =>
    match t.writeFiltered v with
    | (t1, none) =>
      let t2 := { t1 with activeFiltered := true }
      match post_filter with
      | some g => t2.writeFiltered (g t2)
      | none => (t2, none)
    | r => r

/-- `DataTimeSeries.__filter_data`.  First repoints `data_series` to the raw
array, runs the pre hook (writing its result at `head`), then the primary
filter and post hook.  The Python hooks are bound at construction and
receive the object; they are passed here explicitly, which is equivalent
because they never change between calls. -/
def DataTimeSeries.filter_data (t0 : DataTimeSeries)
    (pre_filter post_filter : Option (DataTimeSeries → List ℚ)) :
    DataTimeSeries × Option TSErr :=
  let t := { t0 with activeFiltered := false }
  match pre_filter with
  | some f =>
    match t.writeFiltered (f t) with
    | (t1, none) => t1.filter_primary post_filter
    | r => r
  | none => t.filter_primary post_filter

/-- `DataTimeSeries.__add` (the steady-state add).  `now` models the value
of `time.time()` at this call. -/
def DataTimeSeries.add_steady (t0 : DataTimeSeries) (data : List ℚ) (now : ℚ)
    (timestamp_arg tdelta_arg time_elapsed_arg : Option ℚ)
    (pre_filter post_filter : Option (DataTimeSeries → List ℚ)) :
    DataTimeSeries × Option TSErr :=
  let t := { t0 with activeFiltered := false }
  let added := if t.added < t.nsamples then t.added + 1 else t.added
  let head := if t.head + 1 ≥ t.nsamples then 0 else t.head + 1
  let t := { t with added := added, head := head }
  if data.length = t.ndim ∨ data.length = 1 then
    let t := { t with raw_data := t.raw_data.set head (npBroadcastRow t.ndim data) }
    let ts := timestamp_arg.getD now
    let td := tdelta_arg.getD (ts - t.timestamp.get0)
    let te := time_elapsed_arg.getD (t.time_elapsed.get0 + td)
    let t := { t with time_elapsed := t.time_elapsed.add1 te }
    let t := { t with tdelta := t.tdelta.add1 td }
    let t := { t with timestamp := t.timestamp.add1 ts }
    if t.filtered_data.isSome then t.filter_data pre_filter post_filter
    else (t, none)
  else
    (t, some TSErr.ShapeMismatch)

/-- `DataTimeSeries.__compute_exponential_weights`.  When no weight is set
the computed value is stored back into `self.__weight`, so the `None` test
never fires again on later calls. -/
def DataTimeSeries.compute_exponential_weights (t : DataTimeSeries) :
    DataTimeSeries :=
  let w : ℚ := match t.weight with
    | none => 1 - 2 / ((t.added : ℚ) + 1)
    | some w0 => w0
  let ew := (List.range t.added).foldl (fun a i => a.set i (w ^ i)) t.exp_weights
  let dn := (List.range t.added).foldl (fun d i => d + w ^ i) 0
  { t with weight := some w, exp_weights := ew, denom := dn }

/-- `DataTimeSeries.__initial_time_add`: rebinds `add` to the warm-up
version first, performs the raw write, records `elapsed`/`delta` defaults of
`0.0`, the timestamp, computes the EWMA weights, then filters. -/
def DataTimeSeries.add_initial (t0 : DataTimeSeries) (data : List ℚ) (now : ℚ)
    (timestamp_arg tdelta_arg time_elapsed_arg : Option ℚ)
    (pre_filter post_filter : Option (DataTimeSeries → List ℚ)) :
    DataTimeSeries × Option TSErr :=
  let t := { t0 with phase := Phase.warmup, activeFiltered := false }
  let added := if t.added < t.nsamples then t.added + 1 else t.added
  let head := if t.head + 1 ≥ t.nsamples then 0 else t.head + 1
  let t := { t with added := added, head := head }
  if data.length = t.ndim ∨ data.length = 1 then
    let t := { t with raw_data := t.raw_data.set head (npBroadcastRow t.ndim data) }
    let ts := timestamp_arg.getD now
    let t := { t with time_elapsed := t.time_elapsed.add1 (time_elapsed_arg.getD 0) }
    let t := { t with tdelta := t.tdelta.add1 (tdelta_arg.getD 0) }
    let t := { t with timestamp := t.timestamp.add1 ts }
    let t := t.compute_exponential_weights
    if t.filtered_data.isSome then t.filter_data pre_filter post_filter
    else (t, none)
  else
    (t, some TSErr.ShapeMismatch)

/-- `DataTimeSeries.__initialize_series_add`: rebinds to `__add` once
`added` has reached capacity, recomputes the EWMA weights, then delegates
to `__add`. -/
def DataTimeSeries.add_warmup (t0 : DataTimeSeries) (data : List ℚ) (now : ℚ)
    (timestamp_arg tdelta_arg time_elapsed_arg : Option ℚ)
    (pre_filter post_filter : Option (DataTimeSeries → List ℚ)) :
    DataTimeSeries × Option TSErr :=
  let t := if t0.added ≥ t0.nsamples then { t0 with phase := Phase.steady } else t0
  (t.compute_exponential_weights).add_steady data now
    timestamp_arg tdelta_arg time_elapsed_arg pre_filter post_filter

/-- `DataTimeSeries.add`: dispatches on the current rebinding of the `add`
attribute. -/
def DataTimeSeries.add (t : DataTimeSeries) (data : List ℚ) (now : ℚ)
    (timestamp_arg tdelta_arg time_elapsed_arg : Option ℚ)
    (pre_filter post_filter : Option (DataTimeSeries → List ℚ)) :
    DataTimeSeries × Option TSErr :=
  match t.phase with
  | Phase.initial =>
    t.add_initial data now timestamp_arg tdelta_arg time_elapsed_arg pre_filter post_filter
  | Phase.warmup =>
    t.add_warmup data now timestamp_arg tdelta_arg time_elapsed_arg pre_filter post_filter
  | Phase.steady =>
    t.add_steady data now timestamp_arg tdelta_arg time_elapsed_arg pre_filter post_filter

/-- Well-formedness of a scalar metadata ring of capacity `n`. -/
def ringWf (r : DataSequence) (n : ℕ) : Prop :=
  r.nsamples = n ∧ r.ndim = 1 ∧ r.head < n ∧ r.added ≤ n ∧ r.data_series.length = n

/-- Well-formedness of a `DataTimeSeries` state: positive capacity, `head`
in range, metadata rings of matching capacity. -/
def DataTimeSeries.wf (t : DataTimeSeries) : Prop :=
  1 ≤ t.nsamples ∧ t.head < t.nsamples ∧ t.added ≤ t.nsamples ∧
  t.raw_data.length = t.nsamples ∧
  ringWf t.tdelta t.nsamples ∧ ringWf t.time_elapsed t.nsamples ∧
  ringWf t.timestamp t.nsamples

theorem DataSequence.add_eq (s : DataSequence) (x : List ℚ) :
    s.add x =
      (if x.length = s.ndim ∨ x.length = 1 then
        ({ s with
            added := if s.added < s.nsamples then s.added + 1 else s.added,
            head := if s.head + 1 ≥ s.nsamples then 0 else s.head + 1,
            data_series := s.data_series.set
              (if s.head + 1 ≥ s.nsamples then 0 else s.head + 1)
              (npBroadcastRow s.ndim x) }, none)
      else
        ({ s with
            added := if s.added < s.nsamples then s.added + 1 else s.added,
            head := if s.head + 1 ≥ s.nsamples then 0 else s.head + 1 },
          some TSErr.ShapeMismatch)) := by
  unfold DataSequence.add DataSequence.increment_added DataSequence.increment_head
  by_cases h1 : s.added < s.nsamples <;> by_cases h2 : s.head + 1 ≥ s.nsamples <;>
    simp [h1, h2]

theorem DataSequence.add_fst_nsamples (s : DataSequence) (x : List ℚ) :
    ((s.add x).1).nsamples = s.nsamples := by
  rw [DataSequence.add_eq]; split <;> rfl

theorem DataSequence.add_fst_ndim (s : DataSequence) (x : List ℚ) :
    ((s.add x).1).ndim = s.ndim := by
  rw [DataSequence.add_eq]; split <;> rfl

theorem DataSequence.add_fst_head (s : DataSequence) (x : List ℚ) :
    ((s.add x).1).head = if s.head + 1 ≥ s.nsamples then 0 else s.head + 1 := by
  rw [DataSequence.add_eq]; split <;> rfl

theorem DataSequence.add_fst_added (s : DataSequence) (x : List ℚ) :
    ((s.add x).1).added = if s.added < s.nsamples then s.added + 1 else s.added := by
  rw [DataSequence.add_eq]; split <;> rfl

theorem DataSequence.add_fst_data_len (s : DataSequence) (x : List ℚ) :
    ((s.add x).1).data_series.length = s.data_series.length := by
  rw [DataSequence.add_eq]; split <;> simp

theorem DataSequence.add_head_mod (s : DataSequence) (x : List ℚ)
    (hs : s.head < s.nsamples) :
    ((s.add x).1).head = (s.head + 1) % s.nsamples := by
  rw [DataSequence.add_fst_head]
  rcases Nat.lt_or_ge (s.head + 1) s.nsamples with h | h
  · simp [Nat.not_le.mpr h, Nat.mod_eq_of_lt h]
  · have : s.head + 1 = s.nsamples := by omega
    simp [this, Nat.le_refl]

theorem DataSequence.add_wf (s : DataSequence) (x : List ℚ) (hwf : s.wf) :
    ((s.add x).1).wf := by
  obtain ⟨h1, h2, h3⟩ := hwf
  refine ⟨?_, ?_, ?_⟩
  · rw [DataSequence.add_fst_head, DataSequence.add_fst_nsamples]
    split <;> omega
  · rw [DataSequence.add_fst_added, DataSequence.add_fst_nsamples]
    split <;> omega
  · rw [DataSequence.add_fst_data_len, DataSequence.add_fst_nsamples]
    exact h3

theorem DataSequence.init_wf (n d : ℕ) (hn : 1 ≤ n) : (DataSequence.init n d).wf := by
  refine ⟨hn, Nat.zero_le _, ?_⟩
  simp [DataSequence.init]

theorem DataSequence.addAll_nil (s : DataSequence) : s.addAll [] = s := rfl

theorem DataSequence.addAll_cons (s : DataSequence) (x : List ℚ) (xs : List (List ℚ)) :
    s.addAll (x :: xs) = ((s.add x).1).addAll xs := rfl

theorem DataSequence.addAll_append (s : DataSequence) (xs ys : List (List ℚ)) :
    s.addAll (xs ++ ys) = (s.addAll xs).addAll ys := by
  simp [DataSequence.addAll, List.foldl_append]

theorem DataSequence.addAll_nsamples (s : DataSequence) (xs : List (List ℚ)) :
    (s.addAll xs).nsamples = s.nsamples := by
  induction xs generalizing s with
  | nil => rfl
  | cons x xs ih => rw [DataSequence.addAll_cons, ih, DataSequence.add_fst_nsamples]

theorem DataSequence.addAll_ndim (s : DataSequence) (xs : List (List ℚ)) :
    (s.addAll xs).ndim = s.ndim := by
  induction xs generalizing s with
  | nil => rfl
  | cons x xs ih => rw [DataSequence.addAll_cons, ih, DataSequence.add_fst_ndim]

theorem DataSequence.addAll_data_len (s : DataSequence) (xs : List (List ℚ)) :
    (s.addAll xs).data_series.length = s.data_series.length := by
  induction xs generalizing s with
  | nil => rfl
  | cons x xs ih => rw [DataSequence.addAll_cons, ih, DataSequence.add_fst_data_len]

theorem DataSequence.addAll_wf (s : DataSequence) (xs : List (List ℚ)) (hwf : s.wf) :
    (s.addAll xs).wf := by
  induction xs generalizing s with
  | nil => exact hwf
  | cons x xs ih => exact DataSequence.addAll_cons s x xs ▸ ih _ (s.add_wf x hwf)

theorem DataSequence.addAll_head_mod (s : DataSequence) (xs : List (List ℚ))
    (hwf : s.wf) :
    (s.addAll xs).head = (s.head + xs.length) % s.nsamples := by
  induction xs generalizing s with
  | nil =>
    simp [DataSequence.addAll_nil, Nat.mod_eq_of_lt hwf.1]
  | cons x xs ih =>
    rw [DataSequence.addAll_cons, ih _ (s.add_wf x hwf),
      DataSequence.add_fst_nsamples, DataSequence.add_head_mod s x hwf.1]
    simp [List.length_cons, Nat.mod_add_mod]
    ring_nf

theorem DataSequence.addAll_added (s : DataSequence) (xs : List (List ℚ))
    (hwf : s.wf) :
    (s.addAll xs).added = min (s.added + xs.length) s.nsamples := by
  induction xs generalizing s with
  | nil =>
    rw [DataSequence.addAll_nil]
    have := hwf.2.1
    simp
    omega
  | cons x xs ih =>
    rw [DataSequence.addAll_cons, ih _ (s.add_wf x hwf),
      DataSequence.add_fst_nsamples, DataSequence.add_fst_added]
    have := hwf.2.1
    split <;> simp [List.length_cons] <;> omega

theorem mod_add_shift (n a b c : ℕ) : (a % n + b + c) % n = (a + b + c) % n := by
  rw [Nat.add_assoc, Nat.mod_add_mod, ← Nat.add_assoc]

theorem DataSequence.add_getD_ne (s : DataSequence) (x : List ℚ) (j : ℕ)
    (hne : j ≠ (if s.head + 1 ≥ s.nsamples then 0 else s.head + 1)) :
    ((s.add x).1).data_series.getD j [] = s.data_series.getD j [] := by
  rw [DataSequence.add_eq]
  split
  · simp [List.getElem?_set_ne (Ne.symm hne)]
  · rfl

theorem npBroadcastRow_of_length (d : ℕ) (v : List ℚ) (h : v.length = d) :
    npBroadcastRow d v = v := by
  unfold npBroadcastRow
  rw [if_pos h]

theorem DataSequence.add_getD_self (s : DataSequence) (x : List ℚ)
    (hx : x.length = s.ndim) (hwf : s.wf) :
    ((s.add x).1).data_series.getD ((s.head + 1) % s.nsamples) [] = x := by
  have hlt : (s.head + 1) % s.nsamples < s.data_series.length := by
    rw [hwf.2.2]
    exact Nat.mod_lt _ (by have := hwf.1; omega)
  have hh : (if s.head + 1 ≥ s.nsamples then 0 else s.head + 1) =
      (s.head + 1) % s.nsamples := by
    have := hwf.1
    rcases Nat.lt_or_ge (s.head + 1) s.nsamples with h | h
    · simp [Nat.not_le.mpr h, Nat.mod_eq_of_lt h]
    · have : s.head + 1 = s.nsamples := by omega
      simp [this, Nat.le_refl]
  rw [DataSequence.add_eq, if_pos (Or.inl hx),
    npBroadcastRow_of_length s.ndim x hx]
  simp [hh, List.getElem?_set_self hlt]

theorem DataSequence.addAll_getD_untouched (s : DataSequence) (xs : List (List ℚ))
    (j : ℕ) (hwf : s.wf)
    (hj : ∀ r < xs.length, j ≠ (s.head + 1 + r) % s.nsamples) :
    (s.addAll xs).data_series.getD j [] = s.data_series.getD j [] := by
  induction xs generalizing s with
  | nil => rfl
  | cons x xs ih =>
    rw [DataSequence.addAll_cons]
    have hne : j ≠ (if s.head + 1 ≥ s.nsamples then 0 else s.head + 1) := by
      have h0 := hj 0 (by simp)
      have := hwf.1
      rcases Nat.lt_or_ge (s.head + 1) s.nsamples with h | h
      · simpa [Nat.not_le.mpr h, Nat.mod_eq_of_lt h] using h0
      · have he : s.head + 1 = s.nsamples := by omega
        simpa [he, Nat.le_refl] using h0
    rw [ih _ (s.add_wf x hwf) ?_, DataSequence.add_getD_ne s x j hne]
    intro r hr
    rw [DataSequence.add_head_mod s x hwf.1, DataSequence.add_fst_nsamples,
      mod_add_shift]
    have harith : s.head + 1 + 1 + r = s.head + 1 + (r + 1) := by ring
    rw [harith]
    exact hj (r + 1) (by simpa using Nat.succ_lt_succ hr)

theorem DataSequence.addAll_getD_written (s : DataSequence) (xs : List (List ℚ))
    (hwf : s.wf) (hlen : xs.length ≤ s.nsamples)
    (hsz : ∀ x ∈ xs, x.length = s.ndim) :
    ∀ r < xs.length,
      (s.addAll xs).data_series.getD ((s.head + 1 + r) % s.nsamples) [] =
        xs.getD r [] := by
  induction xs generalizing s with
  | nil => intro r hr; simp at hr
  | cons x xs ih =>
    intro r hr
    rw [DataSequence.addAll_cons]
    rcases r with _ | r
    · -- slot written by the first add; the remaining adds do not touch it
      have hxlen : x.length = s.ndim := hsz x (by simp)
      rw [DataSequence.addAll_getD_untouched _ _ _ (s.add_wf x hwf) ?_]
      · simpa using DataSequence.add_getD_self s x hxlen hwf
      · intro r' hr'
        rw [DataSequence.add_head_mod s x hwf.1, DataSequence.add_fst_nsamples,
          mod_add_shift, Nat.add_zero]
        intro heq
        have hmeq : (s.head + 1) + 0 ≡ (s.head + 1) + (1 + r') [MOD s.nsamples] := by
          unfold Nat.ModEq
          rw [Nat.add_zero, heq]
          ring_nf
        have hz : 0 ≡ 1 + r' [MOD s.nsamples] :=
          Nat.ModEq.add_left_cancel' _ hmeq
        have hdvd : s.nsamples ∣ (1 + r') := Nat.modEq_zero_iff_dvd.mp hz.symm
        have hsmall : 1 + r' < s.nsamples := by
          simp [List.length_cons] at hlen hr'
          omega
        have := Nat.le_of_dvd (by omega) hdvd
        omega
    · -- handled by the induction hypothesis on the tail
      have := ih ((s.add x).1) (s.add_wf x hwf)
        (by rw [DataSequence.add_fst_nsamples]; simp [List.length_cons] at hlen; omega)
        (by intro y hy; rw [DataSequence.add_fst_ndim]; exact hsz y (by simp [hy]))
        r (by simpa [List.length_cons] using hr)
      rw [DataSequence.add_head_mod s x hwf.1, DataSequence.add_fst_nsamples,
        mod_add_shift] at this
      have harith : (s.head + 1 + 1 + r) = (s.head + 1 + (r + 1)) := by ring
      rw [harith] at this
      simpa using this

/-- C9: in every state reachable by construction followed by any sequence of
`add()` calls, `head` lies in `[0, N)` and `added` in `[0, N]`; `added` is
monotonically non-decreasing across further adds, never exceeds `N`, and once
it equals `N` it stays `N`. -/
theorem C9_head_added_invariants (N d : ℕ) (hN : 1 ≤ N) (xs ys : List (List ℚ)) :
    ((DataSequence.init N d).addAll xs).head < N ∧
    ((DataSequence.init N d).addAll xs).added ≤ N ∧
    ((DataSequence.init N d).addAll xs).added ≤
      ((DataSequence.init N d).addAll (xs ++ ys)).added ∧
    (((DataSequence.init N d).addAll xs).added = N →
      ((DataSequence.init N d).addAll (xs ++ ys)).added = N) := by
  have hwf0 : (DataSequence.init N d).wf := DataSequence.init_wf N d hN
  have hwf : ((DataSequence.init N d).addAll xs).wf :=
    DataSequence.addAll_wf _ _ hwf0
  have hns : ((DataSequence.init N d).addAll xs).nsamples = N :=
    DataSequence.addAll_nsamples _ _
  have ha : ((DataSequence.init N d).addAll xs).added = min (0 + xs.length) N :=
    DataSequence.addAll_added _ _ hwf0
  have hb : ((DataSequence.init N d).addAll (xs ++ ys)).added =
      min (0 + (xs ++ ys).length) N :=
    DataSequence.addAll_added _ _ hwf0
  refine ⟨?_, ?_, ?_, ?_⟩
  · have h1 := hwf.1
    rwa [hns] at h1
  · have h2 := hwf.2.1
    rwa [hns] at h2
  · rw [ha, hb, List.length_append]
    omega
  · intro hsat
    rw [ha] at hsat
    rw [hb, List.length_append]
    omega

theorem C9_head_added_invariants_witness :
    ((DataSequence.init 3 1).addAll [[1], [2]]).head < 3 ∧
    ((DataSequence.init 3 1).addAll [[1], [2]]).added ≤ 3 ∧
    ((DataSequence.init 3 1).addAll [[1], [2]]).added ≤
      ((DataSequence.init 3 1).addAll ([[1], [2]] ++ [[3], [4], [5]])).added ∧
    (((DataSequence.init 3 1).addAll [[1], [2]]).added = 3 →
      ((DataSequence.init 3 1).addAll ([[1], [2]] ++ [[3], [4], [5]])).added = 3) :=
  C9_head_added_invariants 3 1 (by decide) [[1], [2]] [[3], [4], [5]]

theorem DataSequence.get_real_index_nat (s : DataSequence) (k : ℕ)
    (hk : k < s.nsamples) (hh : s.head < s.nsamples) :
    s.get_real_index (k : ℤ) =
      (((s.head + s.nsamples - k) % s.nsamples : ℕ) : ℤ) := by
  unfold DataSequence.get_real_index
  rcases Nat.lt_or_ge s.head k with hlt | hge
  · have hneg : (s.head : ℤ) - k < 0 := by omega
    rw [if_pos hneg]
    have hsmall : s.head + s.nsamples - k < s.nsamples := by omega
    rw [Nat.mod_eq_of_lt hsmall]
    omega
  · have hpos : ¬((s.head : ℤ) - k < 0) := by omega
    rw [if_neg hpos]
    have he : s.head + s.nsamples - k = (s.head - k) + s.nsamples := by omega
    rw [he, Nat.add_mod_right, Nat.mod_eq_of_lt (by omega)]
    omega

theorem DataSequence.get_rel_nat (s : DataSequence) (k : ℕ) (hwf : s.wf)
    (hk : k < s.nsamples) :
    s.get_rel (k : ℤ) =
      some (s.data_series.getD ((s.head + s.nsamples - k) % s.nsamples) []) := by
  have hN : 0 < s.nsamples := by have := hwf.1; omega
  rw [DataSequence.get_rel, DataSequence.get_real_index_nat s k hk hwf.1]
  have hmod : (s.head + s.nsamples - k) % s.nsamples < s.nsamples :=
    Nat.mod_lt _ hN
  unfold npIndex
  rw [if_pos ⟨Int.ofNat_nonneg _, by rw [hwf.2.2]; exact_mod_cast hmod⟩,
    Option.map_some', Int.toNat_ofNat]

theorem DataSequence.init_addAll_head (N d : ℕ) (hN : 1 ≤ N)
    (l : List (List ℚ)) :
    ((DataSequence.init N d).addAll l).head = l.length % N := by
  rw [DataSequence.addAll_head_mod _ _ (DataSequence.init_wf N d hN)]
  simp [DataSequence.init]

/-- C7: after adding `N + i` samples to a fresh capacity-`N` sequence,
`added = N`, relative index `0` reads the most recently added sample, and
relative index `N - 1` reads the oldest retained one — the `(i+1)`-th
inserted sample (0-based index `i`), so the first `i` inserted samples have
been evicted. -/
theorem C7_eviction_order (N d i : ℕ) (hN : 1 ≤ N) (xs : List (List ℚ))
    (hlen : xs.length = N + i) (hsz : ∀ x ∈ xs, x.length = d) :
    ((DataSequence.init N d).addAll xs).added = N ∧
    ((DataSequence.init N d).addAll xs).get_rel 0 = xs.getLast? ∧
    ((DataSequence.init N d).addAll xs).get_rel ((N : ℤ) - 1) = xs[i]? := by
  have hN0 : 0 < N := hN
  have hwf0 : (DataSequence.init N d).wf := DataSequence.init_wf N d hN
  have hdecomp : xs.take i ++ xs.drop i = xs := List.take_append_drop i xs
  have hwf1 : ((DataSequence.init N d).addAll (xs.take i)).wf :=
    DataSequence.addAll_wf _ _ hwf0
  have hns1 : ((DataSequence.init N d).addAll (xs.take i)).nsamples = N :=
    DataSequence.addAll_nsamples _ _
  have hnd1 : ((DataSequence.init N d).addAll (xs.take i)).ndim = d :=
    DataSequence.addAll_ndim _ _
  have htake : (xs.take i).length = i := by
    rw [List.length_take]; omega
  have hh1 : ((DataSequence.init N d).addAll (xs.take i)).head = i % N := by
    rw [DataSequence.init_addAll_head N d hN, htake]
  have hzlen : (xs.drop i).length = N := by
    rw [List.length_drop]; omega
  have hfull : (DataSequence.init N d).addAll xs =
      ((DataSequence.init N d).addAll (xs.take i)).addAll (xs.drop i) := by
    rw [← DataSequence.addAll_append, hdecomp]
  have hwf : ((DataSequence.init N d).addAll xs).wf :=
    DataSequence.addAll_wf _ _ hwf0
  have hns : ((DataSequence.init N d).addAll xs).nsamples = N :=
    DataSequence.addAll_nsamples _ _
  have hhead : ((DataSequence.init N d).addAll xs).head = i % N := by
    rw [DataSequence.init_addAll_head N d hN, hlen]
    exact Nat.add_mod_left N i
  have hwritten := DataSequence.addAll_getD_written
    ((DataSequence.init N d).addAll (xs.take i)) (xs.drop i) hwf1
    (by rw [hzlen, hns1])
    (by intro x hx; rw [hnd1]; exact hsz x (List.mem_of_mem_drop hx))
  rw [hh1, hns1] at hwritten
  have hslot0 : ((DataSequence.init N d).addAll xs).data_series.getD (i % N) [] =
      (xs.drop i).getD (N - 1) [] := by
    rw [hfull]
    have := hwritten (N - 1) (by omega)
    have harith : (i % N + 1 + (N - 1)) % N = i % N := by
      have h1 : i % N + 1 + (N - 1) = i % N + N := by omega
      rw [h1, Nat.add_mod_right, Nat.mod_mod]
    rw [harith] at this
    exact this
  have hslot1 : ((DataSequence.init N d).addAll xs).data_series.getD
      ((i % N + 1) % N) [] = (xs.drop i).getD 0 [] := by
    rw [hfull]
    have := hwritten 0 (by omega)
    rw [Nat.add_zero] at this
    exact this
  refine ⟨?_, ?_, ?_⟩
  · rw [DataSequence.addAll_added _ _ hwf0, hlen]
    simp [DataSequence.init]
  · have h0 : ((DataSequence.init N d).addAll xs).get_rel ((0 : ℕ) : ℤ) =
        some (((DataSequence.init N d).addAll xs).data_series.getD
          ((((DataSequence.init N d).addAll xs).head +
            ((DataSequence.init N d).addAll xs).nsamples - 0) %
            ((DataSequence.init N d).addAll xs).nsamples) []) :=
      DataSequence.get_rel_nat _ 0 hwf (by rw [hns]; omega)
    rw [hns, hhead] at h0
    have harith : (i % N + N - 0) % N = i % N := by
      rw [Nat.sub_zero, Nat.add_mod_right, Nat.mod_mod]
    rw [harith] at h0
    have hcast : ((0 : ℕ) : ℤ) = (0 : ℤ) := rfl
    rw [hcast] at h0
    rw [h0, hslot0]
    have hidx : i + (N - 1) < xs.length := by omega
    have hgd : (xs.drop i).getD (N - 1) [] = xs[i + (N - 1)] := by
      simp [List.getD_eq_getElem?_getD, List.getElem?_drop,
        List.getElem?_eq_getElem hidx]
    rw [hgd, List.getLast?_eq_getElem?]
    have hidx2 : xs.length - 1 = i + (N - 1) := by omega
    rw [hidx2, List.getElem?_eq_getElem hidx]
  · have hk : N - 1 < N := by omega
    have h0 := DataSequence.get_rel_nat ((DataSequence.init N d).addAll xs)
      (N - 1) hwf (by rw [hns]; exact hk)
    rw [hns, hhead] at h0
    have hcast : (((N - 1 : ℕ)) : ℤ) = (N : ℤ) - 1 := by omega
    rw [hcast] at h0
    have harith : (i % N + N - (N - 1)) % N = (i % N + 1) % N := by
      have : i % N + N - (N - 1) = i % N + 1 := by omega
      rw [this]
    rw [harith] at h0
    rw [h0, hslot1]
    have hidx : i < xs.length := by omega
    have hgd : (xs.drop i).getD 0 [] = xs[i] := by
      simp [List.getD_eq_getElem?_getD, List.getElem?_drop,
        List.getElem?_eq_getElem hidx]
    rw [hgd, List.getElem?_eq_getElem hidx]

/-- C7 witness: capacity 3, dimension 1; inserting 1, 2, 3, 4 yields
`added = 3`, `get(0) = 4`, `get(1) = 3`, `get(2) = 2` (the sample 1 has been
evicted). -/
theorem C7_eviction_order_witness :
    (((DataSequence.init 3 1).addAll [[1], [2], [3], [4]]).added = 3 ∧
     ((DataSequence.init 3 1).addAll [[1], [2], [3], [4]]).get_rel 0 =
       [[(1 : ℚ)], [2], [3], [4]].getLast? ∧
     ((DataSequence.init 3 1).addAll [[1], [2], [3], [4]]).get_rel ((3 : ℤ) - 1) =
       [[(1 : ℚ)], [2], [3], [4]][1]?) ∧
    ((DataSequence.init 3 1).addAll [[1], [2], [3], [4]]).get_rel 1 =
      some [(3 : ℚ)] :=
  ⟨C7_eviction_order 3 1 1 (by decide) [[1], [2], [3], [4]] (by decide)
      (by intro x hx; fin_cases hx <;> rfl),
   by decide⟩

/-- C4 (amended): for a relative index `i ≥ N`, direct read access does not
generally fail.  `_get_real_index` adds `N` at most once, and Python's
negative indexing silently wraps once more, so the read fails only when
`i > head + 2N`; for `N ≤ i ≤ head + 2N` it silently returns the stored
sample at physical slot `(head − i) mod N`. -/
theorem C4_amended_index_ge_capacity (s : DataSequence) (i : ℤ) (hwf : s.wf)
    (hi : (s.nsamples : ℤ) ≤ i) :
    ((s.head : ℤ) + 2 * s.nsamples < i → s.get_rel i = none) ∧
    (i ≤ (s.head : ℤ) + 2 * s.nsamples →
      s.get_rel i =
        some (s.data_series.getD ((((s.head : ℤ) - i) % (s.nsamples : ℤ)).toNat) [])) := by
  obtain ⟨hh, _, hlen⟩ := hwf
  have hN : (0 : ℤ) < (s.nsamples : ℤ) := by exact_mod_cast Nat.pos_of_ne_zero (by omega)
  have hhZ : (s.head : ℤ) < (s.nsamples : ℤ) := by exact_mod_cast hh
  have hneg : (s.head : ℤ) - i < 0 := by omega
  have hgri : s.get_real_index i = (s.head : ℤ) - i + s.nsamples := by
    unfold DataSequence.get_real_index
    rw [if_pos hneg]
  constructor
  · intro hbig
    unfold DataSequence.get_rel npIndex
    rw [hgri, hlen]
    rw [if_neg (by omega), if_neg (by omega)]
    rfl
  · intro hle
    unfold DataSequence.get_rel npIndex
    rw [hgri, hlen]
    by_cases hc : 0 ≤ (s.head : ℤ) - i + s.nsamples
    · rw [if_pos ⟨hc, by omega⟩, Option.map_some']
      have hmod : ((s.head : ℤ) - i) % (s.nsamples : ℤ) =
          (s.head : ℤ) - i + s.nsamples := by
        have h1 : ((s.head : ℤ) - i + (s.nsamples : ℤ) * 1) % (s.nsamples : ℤ) =
            ((s.head : ℤ) - i) % (s.nsamples : ℤ) :=
          Int.add_mul_emod_self_left _ _ _
        rw [← h1, Int.mul_one, Int.emod_eq_of_lt hc (by omega)]
      rw [hmod]
    · rw [if_neg (by omega), if_pos ⟨by omega, by omega⟩, Option.map_some']
      have hmod : ((s.head : ℤ) - i) % (s.nsamples : ℤ) =
          (s.head : ℤ) - i + s.nsamples + s.nsamples := by
        have h1 : ((s.head : ℤ) - i + (s.nsamples : ℤ) * 2) % (s.nsamples : ℤ) =
            ((s.head : ℤ) - i) % (s.nsamples : ℤ) :=
          Int.add_mul_emod_self_left _ _ _
        have h2 : (s.head : ℤ) - i + (s.nsamples : ℤ) * 2 =
            (s.head : ℤ) - i + s.nsamples + s.nsamples := by ring
        rw [← h1, h2, Int.emod_eq_of_lt (by omega) (by omega)]
      rw [hmod]

theorem C4_amended_index_ge_capacity_witness :
    ((((DataSequence.init 3 1).add [(5 : ℚ)]).1.head : ℤ) + 2 * 3 < 3 →
      ((DataSequence.init 3 1).add [(5 : ℚ)]).1.get_rel 3 = none) ∧
    ((3 : ℤ) ≤ ((((DataSequence.init 3 1).add [(5 : ℚ)]).1.head : ℤ) + 2 * 3) →
      ((DataSequence.init 3 1).add [(5 : ℚ)]).1.get_rel 3 =
        some (((DataSequence.init 3 1).add [(5 : ℚ)]).1.data_series.getD
          (((((DataSequence.init 3 1).add [(5 : ℚ)]).1.head : ℤ) - 3 %
            ((((DataSequence.init 3 1).add [(5 : ℚ)]).1.nsamples : ℕ) : ℤ)).toNat) [])) :=
  C4_amended_index_ge_capacity ((DataSequence.init 3 1).add [(5 : ℚ)]).1 3
    (by exact ⟨by decide, by decide, by decide⟩) (by decide)

/-- C4 (counterexample): the claim says every read with `i ≥ N` fails, but
with capacity 3 after one add, `get(3)` silently returns the stored newest
sample `[5]` instead of failing. -/
theorem C4_counterexample_silent_wrap :
    (((DataSequence.init 3 1).add [(5 : ℚ)]).1.nsamples : ℤ) ≤ 3 ∧
    ((DataSequence.init 3 1).add [(5 : ℚ)]).1.get_rel 3 = some [(5 : ℚ)] := by
  decide

/-- C10 (amended): single-index access with `-1` computes physical index
`head + 1` with no wrap-around: when `head < N - 1` it returns the contents
of physical slot `head + 1` (the oldest slot once saturated), and when
`head = N - 1` it fails with an out-of-range error.  `head = N - 1` holds
exactly after the (N−1)-th, (2N−1)-th, … add — not after the N-th, 2N-th as
the original claim stated. -/
theorem C10_amended_minus_one_access (s : DataSequence) (N d : ℕ)
    (hwf : s.wf) (hN : 1 ≤ N) :
    (s.head < s.nsamples - 1 →
      s.get_rel (-1) = some (s.data_series.getD (s.head + 1) [])) ∧
    (s.head = s.nsamples - 1 → s.get_rel (-1) = none) ∧
    (∀ xs : List (List ℚ),
      ((DataSequence.init N d).addAll xs).head = N - 1 ↔ xs.length % N = N - 1) := by
  obtain ⟨hh, _, hlen⟩ := hwf
  have hgri : s.get_real_index (-1) = (s.head : ℤ) + 1 := by
    unfold DataSequence.get_real_index
    rw [if_neg (by omega)]
    ring
  refine ⟨?_, ?_, ?_⟩
  · intro hlt
    unfold DataSequence.get_rel npIndex
    rw [hgri, hlen]
    rw [if_pos ⟨by omega, by omega⟩, Option.map_some']
    have htn : ((s.head : ℤ) + 1).toNat = s.head + 1 := by omega
    rw [htn]
  · intro heq
    unfold DataSequence.get_rel npIndex
    rw [hgri, hlen]
    rw [if_neg (by omega), if_neg (by omega)]
    rfl
  · intro xs
    rw [DataSequence.init_addAll_head N d hN]

theorem C10_amended_minus_one_access_witness :
    ((((DataSequence.init 3 1).addAll [[1], [2], [3]]).head < 3 - 1 →
      ((DataSequence.init 3 1).addAll [[1], [2], [3]]).get_rel (-1) =
        some (((DataSequence.init 3 1).addAll [[1], [2], [3]]).data_series.getD
          (((DataSequence.init 3 1).addAll [[1], [2], [3]]).head + 1) [])) ∧
    (((DataSequence.init 3 1).addAll [[1], [2], [3]]).head = 3 - 1 →
      ((DataSequence.init 3 1).addAll [[1], [2], [3]]).get_rel (-1) = none) ∧
    (∀ xs : List (List ℚ),
      ((DataSequence.init 3 1).addAll xs).head = 3 - 1 ↔ xs.length % 3 = 3 - 1)) ∧
    ((DataSequence.init 3 1).addAll [[1], [2], [3]]).get_rel (-1) =
      some [(1 : ℚ)] :=
  ⟨C10_amended_minus_one_access ((DataSequence.init 3 1).addAll [[1], [2], [3]])
      3 1 (by exact ⟨by decide, by decide, by decide⟩) (by decide),
   by decide⟩

/-- C10 (counterexample): the claim locates the failing states "immediately
after the N-th, 2N-th, … add".  With capacity 3, immediately after the 3rd
add the head is 0 (not 2 = N−1) and reading index -1 succeeds, returning
the oldest stored sample [1]. -/
theorem C10_counterexample_after_Nth_add :
    ¬(((DataSequence.init 3 1).addAll [[1], [2], [3]]).head = 3 - 1) ∧
    ((DataSequence.init 3 1).addAll [[1], [2], [3]]).get_rel (-1) ≠ none := by
  decide

theorem vadd_right_comm_all : ∀ b a c : List ℚ, vadd (vadd b a) c = vadd (vadd b c) a := by
  intro b
  induction b with
  | nil => intro a c; simp [vadd]
  | cons x bs ih =>
    intro a c
    cases a with
    | nil => simp [vadd]
    | cons y ys =>
      cases c with
      | nil => simp [vadd]
      | cons z zs =>
        simp only [vadd, List.zipWith_cons_cons, List.cons.injEq] at ih ⊢
        exact ⟨by ring, ih ys zs⟩

theorem sumRows_perm (l1 l2 : List (List ℚ)) (d : ℕ) (h : l1.Perm l2) :
    sumRows l1 d = sumRows l2 d := by
  letI : RightCommutative vadd := ⟨vadd_right_comm_all⟩
  exact h.foldl_eq (zeroVec d)

theorem DataSequence.get_slice_all_perm (s : DataSequence) (hwf : s.wf) :
    (s.get_slice_all).Perm s.data_series := by
  obtain ⟨hh, _, hlen⟩ := hwf
  have h0 : (s.get_real_index ((0 : ℕ) : ℤ)).toNat = s.head := by
    unfold DataSequence.get_real_index
    rw [if_neg (by omega)]
    simp
  have hN : (s.get_real_index ((s.nsamples : ℕ) : ℤ)).toNat = s.head := by
    unfold DataSequence.get_real_index
    rw [if_pos (by omega)]
    omega
  simp only [DataSequence.get_slice_all, DataSequence.extract_range, h0, hN,
    ge_iff_le, le_refl, if_true]
  unfold pySliceRevTo0 pySliceRevFromEnd
  have hp := List.Perm.append
    (List.reverse_perm (s.data_series.take (s.head + 1)))
    (List.reverse_perm (s.data_series.drop (s.head + 1)))
  rw [List.take_append_drop] at hp
  exact hp

theorem DataSequence.init_addAll_full_rotate (N d : ℕ) (hN : 1 ≤ N)
    (xs : List (List ℚ)) (hlen : xs.length = N) (hsz : ∀ x ∈ xs, x.length = d) :
    ((DataSequence.init N d).addAll xs).data_series = xs.rotate (N - 1) := by
  have hwf0 : (DataSequence.init N d).wf := DataSequence.init_wf N d hN
  have hlenL : ((DataSequence.init N d).addAll xs).data_series.length = N := by
    rw [DataSequence.addAll_data_len]
    simp [DataSequence.init, zeroVec]
  have hwritten := DataSequence.addAll_getD_written (DataSequence.init N d) xs hwf0
    (by simp [DataSequence.init, hlen])
    (by intro x hx; simpa [DataSequence.init] using hsz x hx)
  have hh0 : (DataSequence.init N d).head = 0 := rfl
  have hnn : (DataSequence.init N d).nsamples = N := rfl
  rw [hh0, hnn] at hwritten
  apply List.ext_getElem?
  intro j
  rcases Nat.lt_or_ge j N with hjN | hjN
  · have h1 : j < ((DataSequence.init N d).addAll xs).data_series.length := by
      rw [hlenL]; exact hjN
    have hrN : (j + (N - 1)) % N < N := Nat.mod_lt _ (by omega)
    have hrlen : (j + (N - 1)) % N < xs.length := by rw [hlen]; exact hrN
    have hkey := hwritten ((j + (N - 1)) % N) hrlen
    have hidx : (0 + 1 + (j + (N - 1)) % N) % N = j := by
      rw [Nat.zero_add, Nat.add_comm 1 ((j + (N - 1)) % N), Nat.mod_add_mod]
      have he : j + (N - 1) + 1 = j + N := by omega
      rw [he, Nat.add_mod_right, Nat.mod_eq_of_lt hjN]
    rw [hidx] at hkey
    have hjr : j < xs.length := by rw [hlen]; exact hjN
    rw [List.getElem?_rotate hjr, hlen,
      List.getElem?_eq_getElem h1, List.getElem?_eq_getElem hrlen]
    have hL : ((DataSequence.init N d).addAll xs).data_series.getD j [] =
        ((DataSequence.init N d).addAll xs).data_series[j] := by
      simp [List.getD_eq_getElem?_getD, List.getElem?_eq_getElem h1]
    have hx : xs.getD ((j + (N - 1)) % N) [] = xs[(j + (N - 1)) % N] := by
      simp [List.getD_eq_getElem?_getD, List.getElem?_eq_getElem hrlen]
    rw [hL, hx] at hkey
    rw [hkey]
  · rw [List.getElem?_eq_none (by rw [hlenL]; exact hjN),
      List.getElem?_eq_none (by rw [List.length_rotate, hlen]; exact hjN)]

/-- C8: `sma()` of a fresh series (`added = 0`) is the zero vector of the
configured dimension rather than an error; over a saturated buffer it equals
the unweighted arithmetic mean of all `N` stored raw samples; and the result
is independent of the order in which the samples were replayed. -/
theorem C8_sma_mean (N d : ℕ) (hN : 1 ≤ N) (xs ys : List (List ℚ))
    (hlen : xs.length = N) (hsz : ∀ x ∈ xs, x.length = d) (hperm : ys.Perm xs) :
    (DataSequence.init N d).sma = zeroVec d ∧
    ((DataSequence.init N d).addAll xs).added = N ∧
    ((DataSequence.init N d).addAll xs).sma = divVec (sumRows xs d) (N : ℚ) ∧
    ((DataSequence.init N d).addAll ys).sma = ((DataSequence.init N d).addAll xs).sma := by
  have key : ∀ zs : List (List ℚ), zs.length = N → (∀ x ∈ zs, x.length = d) →
      ((DataSequence.init N d).addAll zs).added = N ∧
      ((DataSequence.init N d).addAll zs).sma = divVec (sumRows zs d) (N : ℚ) := by
    intro zs hzlen hzsz
    have hwf0 : (DataSequence.init N d).wf := DataSequence.init_wf N d hN
    have hwf : ((DataSequence.init N d).addAll zs).wf :=
      DataSequence.addAll_wf _ _ hwf0
    have hadded : ((DataSequence.init N d).addAll zs).added = N := by
      rw [DataSequence.addAll_added _ _ hwf0, hzlen]
      simp [DataSequence.init]
    have hndim : ((DataSequence.init N d).addAll zs).ndim = d :=
      DataSequence.addAll_ndim _ _
    refine ⟨hadded, ?_⟩
    unfold DataSequence.sma
    rw [hadded, if_neg (by omega), hndim]
    have hsum : sumRows ((DataSequence.init N d).addAll zs).get_slice_all d =
        sumRows zs d := by
      rw [sumRows_perm _ _ d (DataSequence.get_slice_all_perm _ hwf),
        DataSequence.init_addAll_full_rotate N d hN zs hzlen hzsz,
        sumRows_perm _ _ d (List.rotate_perm zs (N - 1))]
    rw [hsum]
  have hylen : ys.length = N := by rw [hperm.length_eq, hlen]
  have hysz : ∀ x ∈ ys, x.length = d := fun x hx => hsz x (hperm.mem_iff.mp hx)
  refine ⟨?_, (key xs hlen hsz).1, (key xs hlen hsz).2, ?_⟩
  · simp [DataSequence.sma, DataSequence.init]
  · rw [(key xs hlen hsz).2, (key ys hylen hysz).2,
      sumRows_perm ys xs d hperm]

theorem C8_sma_mean_witness :
    (DataSequence.init 3 1).sma = zeroVec 1 ∧
    ((DataSequence.init 3 1).addAll [[1], [2], [6]]).added = 3 ∧
    ((DataSequence.init 3 1).addAll [[1], [2], [6]]).sma =
      divVec (sumRows [[(1 : ℚ)], [2], [6]] 1) (3 : ℚ) ∧
    ((DataSequence.init 3 1).addAll [[6], [1], [2]]).sma =
      ((DataSequence.init 3 1).addAll [[1], [2], [6]]).sma :=
  C8_sma_mean 3 1 (by decide) [[1], [2], [6]] [[6], [1], [2]] (by decide)
    (by intro x hx; fin_cases hx <;> rfl) (by decide)

/-- C1: constructing with `auto_filter=True` and `filter_alg='sma'` does NOT
succeed: the constructor's branch `self.__filter['sma'] = self.sma`
subscript-assigns into the attribute `self.__filter` before it has ever been
bound, so construction raises `AttributeError` for every capacity, dimension
and weight, and no SMA filter is ever selected.  (The class docstring lists
`'sma'` as an accepted value, so the code contradicts its own documentation;
the claim describes the documented intent.) -/
theorem C1_sma_construction_crashes (n d : ℕ) (w : Option ℚ) :
    DataTimeSeries.init n d true (some "sma") w =
      Except.error InitErr.AttributeError := rfl

/-- C3 (counterexample): constructing with the unrecognized filter name
`"bogus"` succeeds — no `InvalidFilterAlgorithm` (nor any other error) is
raised at construction. -/
theorem C3_counterexample_unrecognized_accepted :
    ∃ t, DataTimeSeries.init 3 1 true (some "bogus") none = Except.ok t :=
  ⟨_, rfl⟩

/-- C3 (amended): constructing with `auto_filter` enabled and any
unrecognized `filter_alg` name succeeds with no primary filter bound — no
error of any kind (in particular no `InvalidFilterAlgorithm`, which the code
never defines) is raised at construction.  The failure is deferred: the
first `add()` reaches the filter evaluation and raises `AttributeError`
there. -/
theorem C3_amended_deferred_failure (n d : ℕ) (alg : String) (w : Option ℚ)
    (h1 : alg ≠ "ewma") (h2 : alg ≠ "sma") (h3 : alg ≠ "lowpass")
    (data : List ℚ) (hdata : data.length = d) (now : ℚ) :
    ∃ t, DataTimeSeries.init n d true (some alg) w = Except.ok t ∧
      t.filter = BoundFilter.unbound ∧
      (t.add data now none none none none none).2 = some TSErr.AttributeError := by
  have hinit : DataTimeSeries.init n d true (some alg) w = Except.ok
      { nsamples := n, ndim := d, added := 0, head := 0,
        raw_data := List.replicate n (zeroVec d),
        filtered_data := some (List.replicate n (zeroVec d)),
        activeFiltered := true,
        tdelta := DataSequence.init n 1, time_elapsed := DataSequence.init n 1,
        timestamp := DataSequence.init n 1, weight := w, denom := 0,
        exp_weights := List.replicate n 0, filter := BoundFilter.unbound,
        phase := Phase.initial } := by
    unfold DataTimeSeries.init
    rw [if_pos rfl]
    split
    · rename_i h; injection h with h; exact absurd h h1
    · rename_i h; injection h with h; exact absurd h h2
    · rename_i h; injection h with h; exact absurd h h3
    · rename_i h; exact absurd h (by simp)
    · rfl
  refine ⟨_, hinit, rfl, ?_⟩
  simp [DataTimeSeries.add, DataTimeSeries.add_initial, hdata,
    DataTimeSeries.filter_data, DataTimeSeries.filter_primary,
    DataTimeSeries.run_filter, DataTimeSeries.compute_exponential_weights,
    DataSequence.add1, DataSequence.add]

theorem C3_amended_deferred_failure_witness :
    ∃ t, DataTimeSeries.init 3 1 true (some "butterworth") none = Except.ok t ∧
      t.filter = BoundFilter.unbound ∧
      (t.add [(7 : ℚ)] 0 none none none none none).2 =
        some TSErr.AttributeError :=
  C3_amended_deferred_failure 3 1 "butterworth" none
    (by decide) (by decide) (by decide) [(7 : ℚ)] (by decide) 0

theorem DataTimeSeries.writeFiltered_preserves (t : DataTimeSeries) (v : List ℚ) :
    ((t.writeFiltered v).1).tdelta = t.tdelta ∧
    ((t.writeFiltered v).1).time_elapsed = t.time_elapsed ∧
    ((t.writeFiltered v).1).timestamp = t.timestamp ∧
    ((t.writeFiltered v).1).weight = t.weight ∧
    ((t.writeFiltered v).1).phase = t.phase ∧
    ((t.writeFiltered v).1).raw_data = t.raw_data ∧
    ((t.writeFiltered v).1).ndim = t.ndim ∧
    ((t.writeFiltered v).1).nsamples = t.nsamples := by
  unfold DataTimeSeries.writeFiltered
  split <;> exact ⟨rfl, rfl, rfl, rfl, rfl, rfl, rfl, rfl⟩

theorem DataTimeSeries.filter_primary_preserves (t : DataTimeSeries)
    (post : Option (DataTimeSeries → List ℚ)) :
    ((t.filter_primary post).1).tdelta = t.tdelta ∧
    ((t.filter_primary post).1).time_elapsed = t.time_elapsed ∧
    ((t.filter_primary post).1).timestamp = t.timestamp ∧
    ((t.filter_primary post).1).weight = t.weight ∧
    ((t.filter_primary post).1).phase = t.phase ∧
    ((t.filter_primary post).1).raw_data = t.raw_data ∧
    ((t.filter_primary post).1).ndim = t.ndim ∧
    ((t.filter_primary post).1).nsamples = t.nsamples := by
  unfold DataTimeSeries.filter_primary
  split
  · exact ⟨rfl, rfl, rfl, rfl, rfl, rfl, rfl, rfl⟩
  · rename_i v heq1
    split
    · rename_i t1 heq2
      have h1 := DataTimeSeries.writeFiltered_preserves t v
      rw [heq2] at h1
      split
      · rename_i g
        have h2 := DataTimeSeries.writeFiltered_preserves
          { t1 with activeFiltered := true }
          (g { t1 with activeFiltered := true })
        exact ⟨h2.1.trans h1.1, h2.2.1.trans h1.2.1, h2.2.2.1.trans h1.2.2.1,
          h2.2.2.2.1.trans h1.2.2.2.1, h2.2.2.2.2.1.trans h1.2.2.2.2.1,
          h2.2.2.2.2.2.1.trans h1.2.2.2.2.2.1,
          h2.2.2.2.2.2.2.1.trans h1.2.2.2.2.2.2.1,
          h2.2.2.2.2.2.2.2.trans h1.2.2.2.2.2.2.2⟩
      · exact h1
    · exact DataTimeSeries.writeFiltered_preserves t v

theorem DataTimeSeries.filter_data_preserves (t : DataTimeSeries)
    (pre post : Option (DataTimeSeries → List ℚ)) :
    ((t.filter_data pre post).1).tdelta = t.tdelta ∧
    ((t.filter_data pre post).1).time_elapsed = t.time_elapsed ∧
    ((t.filter_data pre post).1).timestamp = t.timestamp ∧
    ((t.filter_data pre post).1).weight = t.weight ∧
    ((t.filter_data pre post).1).phase = t.phase ∧
    ((t.filter_data pre post).1).raw_data = t.raw_data ∧
    ((t.filter_data pre post).1).ndim = t.ndim ∧
    ((t.filter_data pre post).1).nsamples = t.nsamples := by
  cases pre with
  | none =>
    simp only [DataTimeSeries.filter_data]
    exact DataTimeSeries.filter_primary_preserves _ post
  | some f =>
    simp only [DataTimeSeries.filter_data]
    rcases hw : ({ t with activeFiltered := false } : DataTimeSeries).writeFiltered
        (f { t with activeFiltered := false }) with ⟨t1, e⟩
    have h1 := DataTimeSeries.writeFiltered_preserves
      { t with activeFiltered := false } (f { t with activeFiltered := false })
    rw [hw] at h1
    cases e with
    | none =>
      have h2 := DataTimeSeries.filter_primary_preserves t1 post
      exact ⟨h2.1.trans h1.1, h2.2.1.trans h1.2.1, h2.2.2.1.trans h1.2.2.1,
        h2.2.2.2.1.trans h1.2.2.2.1, h2.2.2.2.2.1.trans h1.2.2.2.2.1,
        h2.2.2.2.2.2.1.trans h1.2.2.2.2.2.1,
        h2.2.2.2.2.2.2.1.trans h1.2.2.2.2.2.2.1,
        h2.2.2.2.2.2.2.2.trans h1.2.2.2.2.2.2.2⟩
    | some err => exact h1

theorem ringWf_wf (r : DataSequence) (n : ℕ) (h : ringWf r n) : r.wf := by
  obtain ⟨hns, hnd, hh, ha, hlen⟩ := h
  exact ⟨by rw [hns]; exact hh, by rw [hns]; exact ha, by rw [hns]; exact hlen⟩

theorem ringWf_add1 (r : DataSequence) (n : ℕ) (h : ringWf r n) (x : ℚ) :
    ringWf (r.add1 x) n := by
  obtain ⟨hns, hnd, hh, ha, hlen⟩ := h
  have hwfr : r.wf := ringWf_wf r n ⟨hns, hnd, hh, ha, hlen⟩
  have h2 := DataSequence.add_wf r [x] hwfr
  refine ⟨?_, ?_, ?_, ?_, ?_⟩
  · rw [DataSequence.add1, DataSequence.add_fst_nsamples]; exact hns
  · rw [DataSequence.add1, DataSequence.add_fst_ndim]; exact hnd
  · have := h2.1
    rwa [DataSequence.add_fst_nsamples, hns] at this
  · have := h2.2.1
    rwa [DataSequence.add_fst_nsamples, hns] at this
  · have := h2.2.2
    rwa [DataSequence.add_fst_nsamples, hns] at this

theorem DataSequence.get0_add1 (r : DataSequence) (n : ℕ) (h : ringWf r n)
    (x : ℚ) : (r.add1 x).get0 = x := by
  obtain ⟨hns, hnd, hh, ha, hlen⟩ := h
  have hn1 : 1 ≤ n := by omega
  have hwfr : r.wf := ringWf_wf r n ⟨hns, hnd, hh, ha, hlen⟩
  have hwf2 : (r.add1 x).wf := DataSequence.add_wf r [x] hwfr
  have hns2 : (r.add1 x).nsamples = n := by
    rw [DataSequence.add1, DataSequence.add_fst_nsamples]; exact hns
  have hrel := DataSequence.get_rel_nat (r.add1 x) 0 hwf2 (by rw [hns2]; omega)
  have h00 : (((0 : ℕ) : ℤ)) = (0 : ℤ) := rfl
  rw [h00] at hrel
  have hmod : ((r.add1 x).head + (r.add1 x).nsamples - 0) % (r.add1 x).nsamples =
      (r.add1 x).head := by
    rw [Nat.sub_zero, Nat.add_mod_right, Nat.mod_eq_of_lt hwf2.1]
  rw [hmod] at hrel
  have hdata : (r.add1 x).data_series.getD ((r.add1 x).head) [] = [x] := by
    have hset := DataSequence.add_getD_self r [x] (by simp [hnd]) hwfr
    have hhm := DataSequence.add_head_mod r [x] hwfr.1
    rw [DataSequence.add1, hhm]
    exact hset
  rw [DataSequence.get0, hrel, hdata]
  rfl

theorem DataTimeSeries.compute_weights_fields (t : DataTimeSeries) :
    (t.compute_exponential_weights).tdelta = t.tdelta ∧
    (t.compute_exponential_weights).time_elapsed = t.time_elapsed ∧
    (t.compute_exponential_weights).timestamp = t.timestamp ∧
    (t.compute_exponential_weights).phase = t.phase ∧
    (t.compute_exponential_weights).ndim = t.ndim ∧
    (t.compute_exponential_weights).nsamples = t.nsamples := by
  unfold DataTimeSeries.compute_exponential_weights
  exact ⟨rfl, rfl, rfl, rfl, rfl, rfl⟩

theorem DataTimeSeries.add_steady_rings (t : DataTimeSeries) (data : List ℚ)
    (now : ℚ) (tsa tda tea : Option ℚ)
    (pre post : Option (DataTimeSeries → List ℚ)) (hd : data.length = t.ndim) :
    ((t.add_steady data now tsa tda tea pre post).1).time_elapsed =
      t.time_elapsed.add1
        (tea.getD (t.time_elapsed.get0 + tda.getD (tsa.getD now - t.timestamp.get0))) ∧
    ((t.add_steady data now tsa tda tea pre post).1).tdelta =
      t.tdelta.add1 (tda.getD (tsa.getD now - t.timestamp.get0)) ∧
    ((t.add_steady data now tsa tda tea pre post).1).timestamp =
      t.timestamp.add1 (tsa.getD now) ∧
    ((t.add_steady data now tsa tda tea pre post).1).phase = t.phase ∧
    ((t.add_steady data now tsa tda tea pre post).1).ndim = t.ndim ∧
    ((t.add_steady data now tsa tda tea pre post).1).nsamples = t.nsamples := by
  simp only [DataTimeSeries.add_steady]
  rw [if_pos (Or.inl hd)]
  split
  · exact ⟨(DataTimeSeries.filter_data_preserves _ pre post).2.1,
      (DataTimeSeries.filter_data_preserves _ pre post).1,
      (DataTimeSeries.filter_data_preserves _ pre post).2.2.1,
      (DataTimeSeries.filter_data_preserves _ pre post).2.2.2.2.1,
      (DataTimeSeries.filter_data_preserves _ pre post).2.2.2.2.2.2.1,
      (DataTimeSeries.filter_data_preserves _ pre post).2.2.2.2.2.2.2⟩
  · exact ⟨rfl, rfl, rfl, rfl, rfl, rfl⟩

theorem DataTimeSeries.add_rings (t : DataTimeSeries) (data : List ℚ) (now : ℚ)
    (tsa tda tea : Option ℚ) (pre post : Option (DataTimeSeries → List ℚ))
    (hph : t.phase ≠ Phase.initial) (hd : data.length = t.ndim) :
    ((t.add data now tsa tda tea pre post).1).time_elapsed =
      t.time_elapsed.add1
        (tea.getD (t.time_elapsed.get0 + tda.getD (tsa.getD now - t.timestamp.get0))) ∧
    ((t.add data now tsa tda tea pre post).1).tdelta =
      t.tdelta.add1 (tda.getD (tsa.getD now - t.timestamp.get0)) ∧
    ((t.add data now tsa tda tea pre post).1).timestamp =
      t.timestamp.add1 (tsa.getD now) ∧
    ((t.add data now tsa tda tea pre post).1).phase ≠ Phase.initial ∧
    ((t.add data now tsa tda tea pre post).1).ndim = t.ndim ∧
    ((t.add data now tsa tda tea pre post).1).nsamples = t.nsamples := by
  cases hp : t.phase with
  | initial => exact absurd hp hph
  | steady =>
    have hdisp : t.add data now tsa tda tea pre post =
        t.add_steady data now tsa tda tea pre post := by
      unfold DataTimeSeries.add
      rw [hp]
    rw [hdisp]
    have h := t.add_steady_rings data now tsa tda tea pre post hd
    refine ⟨h.1, h.2.1, h.2.2.1, ?_, h.2.2.2.2.1, h.2.2.2.2.2⟩
    intro hc
    rw [h.2.2.2.1, hp] at hc
    exact Phase.noConfusion hc
  | warmup =>
    have hdisp : t.add data now tsa tda tea pre post =
        t.add_warmup data now tsa tda tea pre post := by
      unfold DataTimeSeries.add
      rw [hp]
    rw [hdisp]
    unfold DataTimeSeries.add_warmup
    split
    · have h := DataTimeSeries.add_steady_rings
        (({ t with phase := Phase.steady } : DataTimeSeries).compute_exponential_weights)
        data now tsa tda tea pre post hd
      refine ⟨h.1, h.2.1, h.2.2.1, ?_, h.2.2.2.2.1, h.2.2.2.2.2⟩
      intro hc
      rw [h.2.2.2.1] at hc
      exact Phase.noConfusion hc
    · have h := DataTimeSeries.add_steady_rings (t.compute_exponential_weights)
        data now tsa tda tea pre post hd
      refine ⟨h.1, h.2.1, h.2.2.1, ?_, h.2.2.2.2.1, h.2.2.2.2.2⟩
      intro hc
      rw [h.2.2.2.1, (DataTimeSeries.compute_weights_fields t).2.2.2.1, hp] at hc
      exact Phase.noConfusion hc

/-- C6: with no per-call overrides, every `add()` after the first stores
`delta = new timestamp − previously newest stored timestamp` and
`elapsed = previously newest stored elapsed + delta` (hence
`elapsed[k] = elapsed[k-1] + delta[k]` chronologically); explicitly supplied
`timestamp`/`delta`/`elapsed` are stored verbatim, and the next call's
defaults are derived from the explicitly stored values. -/
theorem C6_time_metadata_defaults_and_overrides (t : DataTimeSeries)
    (data data2 : List ℚ) (now now2 T D E : ℚ)
    (pre post : Option (DataTimeSeries → List ℚ))
    (hwf : t.wf) (hph : t.phase ≠ Phase.initial)
    (hd : data.length = t.ndim) (hd2 : data2.length = t.ndim) :
    (((t.add data now none none none pre post).1).timestamp.get0 = now ∧
     ((t.add data now none none none pre post).1).tdelta.get0 =
       now - t.timestamp.get0 ∧
     ((t.add data now none none none pre post).1).time_elapsed.get0 =
       t.time_elapsed.get0 + (now - t.timestamp.get0)) ∧
    (((t.add data now (some T) (some D) (some E) pre post).1).timestamp.get0 = T ∧
     ((t.add data now (some T) (some D) (some E) pre post).1).tdelta.get0 = D ∧
     ((t.add data now (some T) (some D) (some E) pre post).1).time_elapsed.get0 = E ∧
     (((t.add data now (some T) (some D) (some E) pre post).1.add data2 now2
         none none none pre post).1).tdelta.get0 = now2 - T ∧
     (((t.add data now (some T) (some D) (some E) pre post).1.add data2 now2
         none none none pre post).1).time_elapsed.get0 = E + (now2 - T)) := by
  obtain ⟨hn1, hhead, hadded, hraw, hrtd, hrte, hrts⟩ := hwf
  have h1 := DataTimeSeries.add_rings t data now none none none pre post hph hd
  have h2 := DataTimeSeries.add_rings t data now (some T) (some D) (some E)
    pre post hph hd
  simp only [Option.getD_none, Option.getD_some] at h1 h2
  refine ⟨⟨?_, ?_, ?_⟩, ?_, ?_, ?_, ?_, ?_⟩
  · rw [h1.2.2.1]
    exact DataSequence.get0_add1 _ _ hrts now
  · rw [h1.2.1]
    exact DataSequence.get0_add1 _ _ hrtd _
  · rw [h1.1]
    exact DataSequence.get0_add1 _ _ hrte _
  · rw [h2.2.2.1]
    exact DataSequence.get0_add1 _ _ hrts T
  · rw [h2.2.1]
    exact DataSequence.get0_add1 _ _ hrtd D
  · rw [h2.1]
    exact DataSequence.get0_add1 _ _ hrte E
  all_goals {
    have hph1 := h2.2.2.2.1
    have hnd1 : ((t.add data now (some T) (some D) (some E) pre post).1).ndim =
        t.ndim := h2.2.2.2.2.1
    have h3 := DataTimeSeries.add_rings
      ((t.add data now (some T) (some D) (some E) pre post).1) data2 now2
      none none none pre post hph1 (by rw [hnd1]; exact hd2)
    simp only [Option.getD_none] at h3
    have hwtd : ringWf ((t.add data now (some T) (some D) (some E) pre post).1).tdelta
        t.nsamples := by
      rw [h2.2.1]
      exact ringWf_add1 _ _ hrtd D
    have hwte : ringWf
        ((t.add data now (some T) (some D) (some E) pre post).1).time_elapsed
        t.nsamples := by
      rw [h2.1]
      exact ringWf_add1 _ _ hrte E
    have hts1 : ((t.add data now (some T) (some D) (some E) pre post).1).timestamp.get0 =
        T := by
      rw [h2.2.2.1]
      exact DataSequence.get0_add1 _ _ hrts T
    have hte1 : ((t.add data now (some T) (some D) (some E) pre post).1).time_elapsed.get0 =
        E := by
      rw [h2.1]
      exact DataSequence.get0_add1 _ _ hrte E
    first
    | (rw [h3.2.1, hts1]
       exact DataSequence.get0_add1 _ _ hwtd _)
    | (rw [h3.1, hts1, hte1]
       exact DataSequence.get0_add1 _ _ hwte _)
  }

theorem DataTimeSeries.add_steady_weight (t : DataTimeSeries) (data : List ℚ)
    (now : ℚ) (tsa tda tea : Option ℚ)
    (pre post : Option (DataTimeSeries → List ℚ)) :
    ((t.add_steady data now tsa tda tea pre post).1).weight = t.weight := by
  simp only [DataTimeSeries.add_steady]
  split
  · split
    · exact (DataTimeSeries.filter_data_preserves _ pre post).2.2.2.1
    · rfl
  · rfl

theorem DataTimeSeries.compute_weight_some (t : DataTimeSeries) (w : ℚ)
    (h : t.weight = some w) :
    (t.compute_exponential_weights).weight = some w := by
  unfold DataTimeSeries.compute_exponential_weights
  simp only [h]

theorem DataTimeSeries.compute_weights_filtered (t : DataTimeSeries) :
    (t.compute_exponential_weights).filtered_data = t.filtered_data := rfl

theorem DataTimeSeries.add_initial_weight_some (t : DataTimeSeries) (w : ℚ)
    (data : List ℚ) (now : ℚ) (tsa tda tea : Option ℚ)
    (pre post : Option (DataTimeSeries → List ℚ)) (h : t.weight = some w) :
    ((t.add_initial data now tsa tda tea pre post).1).weight = some w := by
  simp only [DataTimeSeries.add_initial, DataTimeSeries.compute_weights_filtered]
  split
  · split
    · rw [(DataTimeSeries.filter_data_preserves _ pre post).2.2.2.1]
      exact DataTimeSeries.compute_weight_some _ w h
    · exact DataTimeSeries.compute_weight_some _ w h
  · exact h

theorem DataTimeSeries.add_warmup_weight_some (t : DataTimeSeries) (w : ℚ)
    (data : List ℚ) (now : ℚ) (tsa tda tea : Option ℚ)
    (pre post : Option (DataTimeSeries → List ℚ)) (h : t.weight = some w) :
    ((t.add_warmup data now tsa tda tea pre post).1).weight = some w := by
  unfold DataTimeSeries.add_warmup
  split
  · rw [DataTimeSeries.add_steady_weight]
    exact DataTimeSeries.compute_weight_some _ w h
  · rw [DataTimeSeries.add_steady_weight]
    exact DataTimeSeries.compute_weight_some _ w h

/-- C5 (code behavior at the failing input): the auto-computed EWMA weight is
not recomputed while `added < N`.  `__compute_exponential_weights` stores the
computed value back into `self.__weight`, so the very first `add()` computes
`1 − 2/(1+1) = 0` and stores it, and every later `add()` — warm-up or not —
keeps the stored weight unchanged.  The weight therefore stays `0` forever
instead of tracking `1 − 2/(added+1)`. -/
theorem C5_weight_frozen_after_first_add (t : DataTimeSeries) (w : ℚ)
    (data : List ℚ) (now : ℚ) (tsa tda tea : Option ℚ)
    (pre post : Option (DataTimeSeries → List ℚ)) :
    (t.weight = some w →
      ((t.add data now tsa tda tea pre post).1).weight = some w) ∧
    (t.weight = none → t.phase = Phase.initial → t.added = 0 →
      1 ≤ t.nsamples → data.length = t.ndim →
      ((t.add data now tsa tda tea pre post).1).weight = some 0) := by
  constructor
  · intro h
    unfold DataTimeSeries.add
    cases hp : t.phase with
    | initial =>
      exact DataTimeSeries.add_initial_weight_some t w data now tsa tda tea pre post h
    | warmup =>
      exact DataTimeSeries.add_warmup_weight_some t w data now tsa tda tea pre post h
    | steady =>
      rw [DataTimeSeries.add_steady_weight]
      exact h
  · intro hw hp ha hn hd
    have hdisp : t.add data now tsa tda tea pre post =
        t.add_initial data now tsa tda tea pre post := by
      unfold DataTimeSeries.add
      rw [hp]
    rw [hdisp]
    simp only [DataTimeSeries.add_initial, DataTimeSeries.compute_weights_filtered]
    split
    · have hweq : ∀ t2 : DataTimeSeries, t2.weight = t.weight → t2.added = 1 →
          (t2.compute_exponential_weights).weight = some 0 := by
        intro t2 hw2 ha2
        unfold DataTimeSeries.compute_exponential_weights
        simp only [hw2, hw, ha2]
        norm_num
      split
      · rw [(DataTimeSeries.filter_data_preserves _ pre post).2.2.2.1]
        exact hweq _ rfl (by simp only [ha]; rw [if_pos (by omega)])
      · exact hweq _ rfl (by simp only [ha]; rw [if_pos (by omega)])
    · rename_i hcond
      exact absurd (Or.inl hd) hcond

theorem C5_weight_frozen_after_first_add_witness :
    let T : DataTimeSeries := {
      nsamples := 5, ndim := 1, added := 0, head := 0,
      raw_data := List.replicate 5 (zeroVec 1),
      filtered_data := some (List.replicate 5 (zeroVec 1)), activeFiltered := true,
      tdelta := DataSequence.init 5 1, time_elapsed := DataSequence.init 5 1,
      timestamp := DataSequence.init 5 1, weight := none, denom := 0,
      exp_weights := List.replicate 5 0, filter := BoundFilter.ewma,
      phase := Phase.initial }
    DataTimeSeries.init 5 1 true (some "ewma") none = Except.ok T ∧
    ((T.add [1] 0 none none none none none).1).weight = some 0 ∧
    (((T.add [1] 0 none none none none none).1.add
        [2] 1 none none none none none).1).weight = some 0 := by
  intro T
  have hfirst : ((T.add [1] 0 none none none none none).1).weight = some 0 :=
    (C5_weight_frozen_after_first_add T 0 [1] 0 none none none none none).2
      rfl rfl rfl (by decide) rfl
  refine ⟨rfl, hfirst, ?_⟩
  exact (C5_weight_frozen_after_first_add
    (T.add [1] 0 none none none none none).1 0 [2] 1 none none none none none).1
    hfirst

/-- C2 (counterexample): inserting a wrong-dimension sample is not atomic.
With dimension 2 and the length-3 sample [1,2,3], `add()` raises
ShapeMismatch, but `head` and `added` have already been incremented from 0
to 1 — observable partial state. -/
theorem C2_counterexample_partial_update :
    ∃ t0, DataTimeSeries.init 3 2 false none none = Except.ok t0 ∧
      t0.added = 0 ∧ t0.head = 0 ∧
      (t0.add [1, 2, 3] 0 none none none none none).2 = some TSErr.ShapeMismatch ∧
      ((t0.add [1, 2, 3] 0 none none none none none).1).added = 1 ∧
      ((t0.add [1, 2, 3] 0 none none none none none).1).head = 1 :=
  ⟨_, rfl, rfl, rfl, rfl, rfl, rfl⟩

theorem DataTimeSeries.run_filter_passthrough (t : DataTimeSeries)
    (hfilt : t.filter = BoundFilter.passthrough) (w : List ℚ)
    (hget : t.get_rel 0 = some w) : t.run_filter = Except.ok w := by
  unfold DataTimeSeries.run_filter
  rw [hfilt, hget]

theorem DataTimeSeries.get_rel0_raw (t : DataTimeSeries)
    (hact : t.activeFiltered = false) (hh : t.head < t.nsamples)
    (ha : t.added ≤ t.nsamples) (hlen : t.raw_data.length = t.nsamples) :
    t.get_rel 0 = some (t.raw_data.getD t.head []) := by
  unfold DataTimeSeries.get_rel DataTimeSeries.activeSeq DataTimeSeries.active
  simp only [hact, Bool.false_eq_true, if_false]
  have hrel := DataSequence.get_rel_nat
    ⟨t.nsamples, t.ndim, t.added, t.head, t.raw_data⟩ 0 ⟨hh, ha, hlen⟩
    (by show 0 < t.nsamples; omega)
  have h00 : (((0 : ℕ) : ℤ)) = (0 : ℤ) := rfl
  rw [h00] at hrel
  rw [hrel]
  have hmod : (t.head + t.nsamples - 0) % t.nsamples = t.head := by
    rw [Nat.sub_zero, Nat.add_mod_right, Nat.mod_eq_of_lt hh]
  rw [hmod]

theorem DataTimeSeries.filter_primary_post_bad (t : DataTimeSeries)
    (v w : List ℚ) (fd : List (List ℚ))
    (hfilt : t.filter = BoundFilter.passthrough)
    (hget : t.get_rel 0 = some w) (hw : w.length = t.ndim)
    (hfd : t.filtered_data = some fd)
    (hv1 : v.length ≠ t.ndim) (hv2 : v.length ≠ 1) :
    t.filter_primary (some (fun _ => v)) =
      ({ t with filtered_data := some (fd.set t.head w), activeFiltered := true },
        some TSErr.ShapeMismatch) := by
  unfold DataTimeSeries.filter_primary
  rw [DataTimeSeries.run_filter_passthrough t hfilt w hget]
  simp only [DataTimeSeries.writeFiltered]
  rw [if_pos (Or.inl hw), npBroadcastRow_of_length _ _ hw]
  simp only [hfd, Option.map_some']
  rw [if_neg (fun hc => hc.elim hv1 hv2)]

/-- C2 (amended): `add()` is not atomic.
In every phase, inserting a sample whose length NumPy cannot broadcast into
a row (different from both `ndim` and `1`) fails with ShapeMismatch after
`head` and `added` have already been incremented, while raw storage, time
metadata and the filtered view are unchanged.  In the steady state, a
pre-filter hook returning a non-broadcastable value fails with
ShapeMismatch after the raw write and the complete time-metadata update
have committed, with the filtered view still untouched; a post-filter hook
returning a non-broadcastable value fails after, in addition, the primary
filter's result has already overwritten the filtered slot at the new head
and the active view has switched to the filtered array. -/
theorem C2_amended_partial_commit (t : DataTimeSeries) (data v : List ℚ)
    (fd : List (List ℚ)) (now : ℚ) :
    (data.length ≠ t.ndim → data.length ≠ 1 →
      ((t.add data now none none none none none).2 = some TSErr.ShapeMismatch ∧
       ((t.add data now none none none none none).1).raw_data = t.raw_data ∧
       ((t.add data now none none none none none).1).tdelta = t.tdelta ∧
       ((t.add data now none none none none none).1).time_elapsed = t.time_elapsed ∧
       ((t.add data now none none none none none).1).timestamp = t.timestamp ∧
       ((t.add data now none none none none none).1).filtered_data = t.filtered_data ∧
       ((t.add data now none none none none none).1).added =
         (if t.added < t.nsamples then t.added + 1 else t.added) ∧
       ((t.add data now none none none none none).1).head =
         (if t.head + 1 ≥ t.nsamples then 0 else t.head + 1))) ∧
    (t.phase = Phase.steady → data.length = t.ndim →
      v.length ≠ t.ndim → v.length ≠ 1 → t.filtered_data = some fd →
      ((t.add data now none none none (some (fun _ => v)) none).2 =
         some TSErr.ShapeMismatch ∧
       ((t.add data now none none none (some (fun _ => v)) none).1).raw_data =
         t.raw_data.set (if t.head + 1 ≥ t.nsamples then 0 else t.head + 1) data ∧
       ((t.add data now none none none (some (fun _ => v)) none).1).tdelta =
         t.tdelta.add1 (now - t.timestamp.get0) ∧
       ((t.add data now none none none (some (fun _ => v)) none).1).time_elapsed =
         t.time_elapsed.add1 (t.time_elapsed.get0 + (now - t.timestamp.get0)) ∧
       ((t.add data now none none none (some (fun _ => v)) none).1).timestamp =
         t.timestamp.add1 now ∧
       ((t.add data now none none none (some (fun _ => v)) none).1).filtered_data =
         t.filtered_data)) ∧
    (t.phase = Phase.steady → t.filter = BoundFilter.passthrough →
      data.length = t.ndim → v.length ≠ t.ndim → v.length ≠ 1 →
      t.filtered_data = some fd → t.head < t.nsamples →
      t.added ≤ t.nsamples → t.raw_data.length = t.nsamples →
      ((t.add data now none none none none (some (fun _ => v))).2 =
         some TSErr.ShapeMismatch ∧
       ((t.add data now none none none none (some (fun _ => v))).1).raw_data =
         t.raw_data.set (if t.head + 1 ≥ t.nsamples then 0 else t.head + 1) data ∧
       ((t.add data now none none none none (some (fun _ => v))).1).tdelta =
         t.tdelta.add1 (now - t.timestamp.get0) ∧
       ((t.add data now none none none none (some (fun _ => v))).1).time_elapsed =
         t.time_elapsed.add1 (t.time_elapsed.get0 + (now - t.timestamp.get0)) ∧
       ((t.add data now none none none none (some (fun _ => v))).1).timestamp =
         t.timestamp.add1 now ∧
       ((t.add data now none none none none (some (fun _ => v))).1).filtered_data =
         some (fd.set (if t.head + 1 ≥ t.nsamples then 0 else t.head + 1) data) ∧
       ((t.add data now none none none none (some (fun _ => v))).1).activeFiltered =
         true)) := by
  refine ⟨?_, ?_, ?_⟩
  · intro hbad1 hbad2
    cases hp : t.phase with
    | initial =>
      have hdisp : t.add data now none none none none none =
          t.add_initial data now none none none none none := by
        unfold DataTimeSeries.add
        rw [hp]
      rw [hdisp]
      simp only [DataTimeSeries.add_initial]
      rw [if_neg (fun hc => hc.elim hbad1 hbad2)]
      exact ⟨rfl, rfl, rfl, rfl, rfl, rfl, rfl, rfl⟩
    | warmup =>
      have hdisp : t.add data now none none none none none =
          t.add_warmup data now none none none none none := by
        unfold DataTimeSeries.add
        rw [hp]
      rw [hdisp]
      unfold DataTimeSeries.add_warmup
      split
      · simp only [DataTimeSeries.add_steady,
          DataTimeSeries.compute_exponential_weights]
        rw [if_neg (fun hc => hc.elim hbad1 hbad2)]
        exact ⟨rfl, rfl, rfl, rfl, rfl, rfl, rfl, rfl⟩
      · simp only [DataTimeSeries.add_steady,
          DataTimeSeries.compute_exponential_weights]
        rw [if_neg (fun hc => hc.elim hbad1 hbad2)]
        exact ⟨rfl, rfl, rfl, rfl, rfl, rfl, rfl, rfl⟩
    | steady =>
      have hdisp : t.add data now none none none none none =
          t.add_steady data now none none none none none := by
        unfold DataTimeSeries.add
        rw [hp]
      rw [hdisp]
      simp only [DataTimeSeries.add_steady]
      rw [if_neg (fun hc => hc.elim hbad1 hbad2)]
      exact ⟨rfl, rfl, rfl, rfl, rfl, rfl, rfl, rfl⟩
  · intro hph hd hv1 hv2 hfd
    have hdisp : t.add data now none none none (some (fun _ => v)) none =
        t.add_steady data now none none none (some (fun _ => v)) none := by
      unfold DataTimeSeries.add
      rw [hph]
    rw [hdisp]
    simp only [DataTimeSeries.add_steady]
    rw [if_pos (Or.inl hd), npBroadcastRow_of_length _ _ hd]
    simp only [hfd, Option.isSome_some, if_true]
    simp only [DataTimeSeries.filter_data, DataTimeSeries.writeFiltered]
    rw [if_neg (fun hc => hc.elim hv1 hv2)]
    exact ⟨rfl, rfl, rfl, rfl, rfl, rfl⟩
  · intro hph hfilt hd hv1 hv2 hfd hh ha hlen
    have hdisp : t.add data now none none none none (some (fun _ => v)) =
        t.add_steady data now none none none none (some (fun _ => v)) := by
      unfold DataTimeSeries.add
      rw [hph]
    rw [hdisp]
    simp only [DataTimeSeries.add_steady]
    rw [if_pos (Or.inl hd), npBroadcastRow_of_length _ _ hd]
    simp only [hfd, Option.isSome_some, if_true]
    simp only [DataTimeSeries.filter_data]
    rw [DataTimeSeries.filter_primary_post_bad _ v data fd]
    · exact ⟨rfl, rfl, rfl, rfl, rfl, rfl, rfl⟩
    · exact hfilt
    · rw [DataTimeSeries.get_rel0_raw _ rfl ?_ ?_ ?_]
      · have hlt : (if t.nsamples ≤ t.head + 1 then 0 else t.head + 1) <
            t.raw_data.length := by
          rw [hlen]
          split <;> omega
        simp [List.getD_eq_getElem?_getD, List.getElem?_set_self hlt]
      · show (if t.head + 1 ≥ t.nsamples then 0 else t.head + 1) < t.nsamples
        split <;> omega
      · show (if t.added < t.nsamples then t.added + 1 else t.added) ≤ t.nsamples
        split <;> omega
      · show (t.raw_data.set
            (if t.head + 1 ≥ t.nsamples then 0 else t.head + 1) data).length =
          t.nsamples
        rw [List.length_set, hlen]
    · exact hd
    · rfl
    · exact hv1
    · exact hv2

theorem C2_amended_partial_commit_witness :
    let U : DataTimeSeries := {
      nsamples := 2, ndim := 1, added := 2, head := 0,
      raw_data := [[1], [2]],
      filtered_data := some [[1], [2]], activeFiltered := true,
      tdelta := ⟨2, 1, 2, 0, [[0], [0]]⟩,
      time_elapsed := ⟨2, 1, 2, 0, [[5], [0]]⟩,
      timestamp := ⟨2, 1, 2, 0, [[10], [0]]⟩,
      weight := some 0, denom := 1, exp_weights := [1, 0],
      filter := BoundFilter.passthrough, phase := Phase.steady }
    ((U.add [7, 8] 20 none none none none none).2 = some TSErr.ShapeMismatch ∧
     ((U.add [7, 8] 20 none none none none none).1).raw_data = U.raw_data ∧
     ((U.add [7, 8] 20 none none none none none).1).tdelta = U.tdelta ∧
     ((U.add [7, 8] 20 none none none none none).1).time_elapsed = U.time_elapsed ∧
     ((U.add [7, 8] 20 none none none none none).1).timestamp = U.timestamp ∧
     ((U.add [7, 8] 20 none none none none none).1).filtered_data = U.filtered_data ∧
     ((U.add [7, 8] 20 none none none none none).1).added =
       (if U.added < U.nsamples then U.added + 1 else U.added) ∧
     ((U.add [7, 8] 20 none none none none none).1).head =
       (if U.head + 1 ≥ U.nsamples then 0 else U.head + 1)) ∧
    ((U.add [7] 20 none none none (some (fun _ => [9, 9])) none).2 =
       some TSErr.ShapeMismatch ∧
     ((U.add [7] 20 none none none (some (fun _ => [9, 9])) none).1).raw_data =
       U.raw_data.set (if U.head + 1 ≥ U.nsamples then 0 else U.head + 1) [7] ∧
     ((U.add [7] 20 none none none (some (fun _ => [9, 9])) none).1).tdelta =
       U.tdelta.add1 (20 - U.timestamp.get0) ∧
     ((U.add [7] 20 none none none (some (fun _ => [9, 9])) none).1).time_elapsed =
       U.time_elapsed.add1 (U.time_elapsed.get0 + (20 - U.timestamp.get0)) ∧
     ((U.add [7] 20 none none none (some (fun _ => [9, 9])) none).1).timestamp =
       U.timestamp.add1 20 ∧
     ((U.add [7] 20 none none none (some (fun _ => [9, 9])) none).1).filtered_data =
       U.filtered_data) ∧
    ((U.add [7] 20 none none none none (some (fun _ => [9, 9]))).2 =
       some TSErr.ShapeMismatch ∧
     ((U.add [7] 20 none none none none (some (fun _ => [9, 9]))).1).raw_data =
       U.raw_data.set (if U.head + 1 ≥ U.nsamples then 0 else U.head + 1) [7] ∧
     ((U.add [7] 20 none none none none (some (fun _ => [9, 9]))).1).tdelta =
       U.tdelta.add1 (20 - U.timestamp.get0) ∧
     ((U.add [7] 20 none none none none (some (fun _ => [9, 9]))).1).time_elapsed =
       U.time_elapsed.add1 (U.time_elapsed.get0 + (20 - U.timestamp.get0)) ∧
     ((U.add [7] 20 none none none none (some (fun _ => [9, 9]))).1).timestamp =
       U.timestamp.add1 20 ∧
     ((U.add [7] 20 none none none none (some (fun _ => [9, 9]))).1).filtered_data =
       some ([[(1 : ℚ)], [2]].set
         (if U.head + 1 ≥ U.nsamples then 0 else U.head + 1) [7]) ∧
     ((U.add [7] 20 none none none none (some (fun _ => [9, 9]))).1).activeFiltered =
       true) := by
  intro U
  refine ⟨(C2_amended_partial_commit U [7, 8] [9, 9] [[1], [2]] 20).1
      (by decide) (by decide),
    (C2_amended_partial_commit U [7] [9, 9] [[1], [2]] 20).2.1
      rfl rfl (by decide) (by decide) rfl,
    (C2_amended_partial_commit U [7] [9, 9] [[1], [2]] 20).2.2
      rfl rfl rfl (by decide) (by decide) rfl (by decide) (by decide) rfl⟩


theorem C6_time_metadata_defaults_and_overrides_witness :
    let U : DataTimeSeries := {
      nsamples := 2, ndim := 1, added := 2, head := 0,
      raw_data := [[1], [2]],
      filtered_data := some [[1], [2]], activeFiltered := true,
      tdelta := ⟨2, 1, 2, 0, [[0], [0]]⟩,
      time_elapsed := ⟨2, 1, 2, 0, [[5], [0]]⟩,
      timestamp := ⟨2, 1, 2, 0, [[10], [0]]⟩,
      weight := some 0, denom := 1, exp_weights := [1, 0],
      filter := BoundFilter.passthrough, phase := Phase.steady }
    (((U.add [3] 100 none none none none none).1).timestamp.get0 = 100 ∧
     ((U.add [3] 100 none none none none none).1).tdelta.get0 =
       100 - U.timestamp.get0 ∧
     ((U.add [3] 100 none none none none none).1).time_elapsed.get0 =
       U.time_elapsed.get0 + (100 - U.timestamp.get0)) ∧
    (((U.add [3] 100 (some 50) (some 7) (some 30) none none).1).timestamp.get0 = 50 ∧
     ((U.add [3] 100 (some 50) (some 7) (some 30) none none).1).tdelta.get0 = 7 ∧
     ((U.add [3] 100 (some 50) (some 7) (some 30) none none).1).time_elapsed.get0 = 30 ∧
     (((U.add [3] 100 (some 50) (some 7) (some 30) none none).1.add
         [4] 200 none none none none none).1).tdelta.get0 = 200 - 50 ∧
     (((U.add [3] 100 (some 50) (some 7) (some 30) none none).1.add
         [4] 200 none none none none none).1).time_elapsed.get0 =
       30 + (200 - 50)) := by
  intro U
  exact C6_time_metadata_defaults_and_overrides U [3] [4] 100 200 50 7 30
    none none
    ⟨by decide, by decide, by decide, by decide,
     ⟨rfl, rfl, by decide, by decide, rfl⟩,
     ⟨rfl, rfl, by decide, by decide, rfl⟩,
     ⟨rfl, rfl, by decide, by decide, rfl⟩⟩
    (by decide) rfl rfl
